import Mathlib

/-!
Suricata: Teredo decapsulation, the queue registry and the `fileext` keyword.

A shallow embedding of `src/decode-teredo.c`, `src/tm-queues.c` and
`src/detect-fileext.c`.

* A packet buffer is a `List Nat` of bytes; `pkt[i]?` is the read of `pkt[i]`, and `none`
  is a read outside the buffer.
* A pointer into the buffer (`start`) is its offset `c = start - pkt`.
* The calls `DecodeTeredo` makes to code outside the file are recorded as a list of events.
-/

namespace Suricata

/-! ## decode-teredo.c -/

/-- Modelled from the spec: the constant `IPV6_HEADER_LEN` of `decode-ipv6.h`, the fixed
length of the inner (IPv6) header, 40 bytes. -/
def IPV6_HEADER_LEN : Nat := 40

/-- Modelled from the spec: the constant `IPPROTO_IPV6` of the system headers, the protocol
tag of the inner packet (41). -/
def IPPROTO_IPV6 : Nat := 41

/-- Modelled from the spec: the macro `IP_GET_RAW_VER(pkt)` of `decode.h`, the version
nibble of the first byte `b` of a header, `(b & 0xf0) >> 4`. -/
def IP_GET_RAW_VER (b : Nat) : Nat := (b &&& 0xf0) >>> 4

/-- Modelled from the spec: the macro `IPV6_GET_RAW_PLEN(ip6h)` of `decode-ipv6.h`, the
16-bit payload-length field in network byte order; `b4` and `b5` are the bytes of the
header at offsets 4 and 5. -/
def IPV6_GET_RAW_PLEN (b4 b5 : Nat) : Nat := b4 * 256 + b5

/-- How the `while (start[0] == 0x0)` loop of `DecodeTeredo` ends. -/
inductive Stop where
  /-- A read at index `i`, which is outside the buffer. -/
  | fault (i : Nat)
  /-- One of the `return 0` statements inside the loop. -/
  | reject
  /-- The loop condition is false with `start = pkt + c`. -/
  | inner (c : Nat)
  deriving DecidableEq, Repr

/-- A run of the envelope walk: the indices read (in order), the offsets `start - pkt` at
which `start += 8` was executed (in order), and how the loop ended. -/
structure Walk where
  reads : List Nat
  skips : List Nat
  stop : Stop
  deriving DecidableEq, Repr

/-- The loop `while (start[0] == 0x0) { switch (start[1]) ... }` of `DecodeTeredo`, entered
with `start = pkt + c`. The guard of `case 0x0` is the source's
`len >= 8 + (pkt - start) + IPV6_HEADER_LEN`, where `pkt - start` is the signed pointer
difference `0 - c`. -/
def walk (pkt : List Nat) (len : Nat) (c : Nat) : Walk :=
  match h : pkt[c]? with
  | none => ⟨[c], [], .fault c⟩
  | some b0 =>
    if b0 = 0x0 then
      match pkt[c + 1]? with
      | none => ⟨[c, c + 1], [], .fault (c + 1)⟩
      | some b1 =>
        if b1 = 0x0 then
          if (len : Int) ≥ 8 + ((0 : Int) - (c : Int)) + (IPV6_HEADER_LEN : Int) then
            let r := walk pkt len (c + 8)
            ⟨c :: (c + 1) :: r.reads, c :: r.skips, r.stop⟩
          else
            ⟨[c, c + 1], [], .reject⟩
        else
          ⟨[c, c + 1], [], .reject⟩
    else
      ⟨[c], [], .inner c⟩
termination_by pkt.length - c
decreasing_by
  have hc : c < pkt.length := by
    by_contra hn
    have hnone : pkt[c]? = none := List.getElem?_eq_none (by omega)
    rw [hnone] at h
    cases h
  omega

/-- The calls of `DecodeTeredo` into other modules, with their arguments: `p` is the packet
passed in, `tp` the pseudo packet, `off` the offset of `start` in the buffer. -/
inductive Event (P TP : Type) where
  | PacketPseudoPktSetup (p : P) (off : Nat) (blen : Int) (proto : Nat)
  | DecodeTunnel (tp : TP) (off : Nat) (blen : Int) (proto : Nat)
  | PacketEnqueue (tp : TP)
  | SCPerfCounterIncr
  deriving DecidableEq, Repr

/-- A run of `DecodeTeredo`: the value returned (`none` when a read left the buffer, which
is undefined behaviour in C), the indices read, the offsets at which the walk skipped an
origin indication, and the calls made, in order. -/
structure Run (P TP : Type) where
  ret : Option Int
  reads : List Nat
  skips : List Nat
  events : List (Event P TP)
  deriving DecidableEq, Repr

/-- The part of `DecodeTeredo` after the loop, with `start = pkt + c`; `w` carries the
reads and skips of the loop. `pq` is `true` for a non-NULL queue; `setup` is
`PacketPseudoPktSetup`, `none` being its NULL result. -/
def decodeInner {P TP : Type} (setup : P → Nat → Int → Nat → Option TP) (p : P)
    (pkt : List Nat) (len : Nat) (pq : Bool) (w : Walk) (c : Nat) : Run P TP :=
  match pkt[c]? with
  | none => ⟨none, w.reads ++ [c], w.skips, []⟩
  | some b =>
    if IP_GET_RAW_VER b = 6 then
      match pkt[c + 4]? with
      | none => ⟨none, w.reads ++ [c, c + 4], w.skips, []⟩
      | some b4 =>
        match pkt[c + 5]? with
        | none => ⟨none, w.reads ++ [c, c + 4, c + 5], w.skips, []⟩
        | some b5 =>
          let rd := w.reads ++ [c, c + 4, c + 5]
          if (len : Int) = (IPV6_HEADER_LEN : Int) + (IPV6_GET_RAW_PLEN b4 b5 : Int)
              + ((c : Int) - 0) then
            if pq then
              let blen : Int := (len : Int) - ((c : Int) - 0)
              match setup p c blen IPPROTO_IPV6 with
              | some tp =>
                ⟨some 1, rd, w.skips,
                  [.PacketPseudoPktSetup p c blen IPPROTO_IPV6,
                   .DecodeTunnel tp c blen IPPROTO_IPV6,
                   .PacketEnqueue tp,
                   .SCPerfCounterIncr]⟩
              | none => ⟨some 0, rd, w.skips, [.PacketPseudoPktSetup p c blen IPPROTO_IPV6]⟩
            else ⟨some 0, rd, w.skips, []⟩
          else ⟨some 0, rd, w.skips, []⟩
    else ⟨some 0, w.reads ++ [c], w.skips, []⟩

/-- The function `DecodeTeredo(tv, dtv, p, pkt, len, pq)`. -/
def DecodeTeredo {P TP : Type} (setup : P → Nat → Int → Nat → Option TP) (p : P)
    (pkt : List Nat) (len : Nat) (pq : Bool) : Run P TP :=
  if len < IPV6_HEADER_LEN then
    ⟨some 0, [], [], []⟩
  else
    let w := walk pkt len 0
    match w.stop with
    | .fault _ => ⟨none, w.reads, w.skips, []⟩
    | .reject => ⟨some 0, w.reads, w.skips, []⟩
    | .inner c => decodeInner setup p pkt len pq w c

/-- The packets `DecodeTeredo` itself put on the queue (`PacketEnqueue`), in order. -/
def enqueued {P TP : Type} (es : List (Event P TP)) : List TP :=
  es.filterMap fun e => match e with
    | .PacketEnqueue tp => some tp
    | _ => none

/-- How often the teredo counter was incremented (`SCPerfCounterIncr`). -/
def counterIncrs {P TP : Type} (es : List (Event P TP)) : Nat :=
  es.countP fun e => match e with
    | .SCPerfCounterIncr => true
    | _ => false

/-- How often the tunnel decoder was called (`DecodeTunnel`). -/
def tunnelCalls {P TP : Type} (es : List (Event P TP)) : Nat :=
  es.countP fun e => match e with
    | .DecodeTunnel _ _ _ _ => true
    | _ => false

/-- The offsets at which a run evaluated the loop condition: 0 and `k + 8` for each
skipped `k`. -/
def Run.visited {P TP : Type} (r : Run P TP) : List Nat := 0 :: r.skips.map (· + 8)

/-! ### Concrete buffers -/

/-- A `PacketPseudoPktSetup` that always succeeds, with pseudo packet 7. -/
def setupOk : Unit → Nat → Int → Nat → Option Nat := fun _ _ _ _ => some 7

/-- A `PacketPseudoPktSetup` that always fails (returns NULL). -/
def setupFail : Unit → Nat → Int → Nat → Option Nat := fun _ _ _ _ => none

/-- A buffer of 48 zero bytes. -/
def zeros48 : List Nat := List.replicate 48 0

/-- A buffer of 48 bytes: two origin indications, then 32 bytes that start like an IPv6
header (version nibble 6). -/
def twoIndications : List Nat :=
  [0, 0, 1, 2, 3, 4, 5, 6, 0, 0, 1, 2, 3, 4, 5, 6, 0x60, 0, 0, 0, 0, 0] ++ List.replicate 26 0

/-- A buffer of 50 bytes: one origin indication, an IPv6 header with payload length 2, and
two bytes of payload. -/
def oneIndication : List Nat :=
  [0, 0, 1, 2, 3, 4, 5, 6, 0x60, 0, 0, 0, 0, 2] ++ List.replicate 34 0 ++ [1, 1]

/-- A buffer of 40 bytes opening with the authentication marker `0x00 0x01`. -/
def authFirst : List Nat := [0, 1] ++ List.replicate 38 0x60

/-- A buffer of 56 bytes: an origin indication followed by an authentication marker. -/
def authSecond : List Nat := [0, 0, 1, 2, 3, 4, 5, 6, 0, 1] ++ List.replicate 46 0x60

/-- A buffer of 40 bytes whose first byte has version nibble 4. -/
def version4 : List Nat := [0x45] ++ List.replicate 39 0

/-- A bare IPv6 header of 40 bytes that declares one byte of payload. -/
def plenOne : List Nat := [0x60, 0, 0, 0, 0, 1] ++ List.replicate 34 0

/-- A buffer of 50 bytes: six origin indications, then a byte with version nibble 6 at
offset 48 and one more byte. -/
def sixIndications : List Nat := List.replicate 48 0 ++ [0x60, 0]

/-! ## tm-queues.c -/

/-- The constant `TMQ_MAX_QUEUES`. -/
def TMQ_MAX_QUEUES : Nat := 256

/-- Modelled from the spec: the record type `Tmq` of `tm-queues.h`, with the fields the
functions of `tm-queues.c` use. A `name` of `none` is the NULL pointer; a C string is a
`String`, and `strcmp(a, b) == 0` is equality of strings. -/
structure Tmq where
  name : Option String
  id : Nat
  reader_cnt : Nat
  writer_cnt : Nat
  q_type : Nat
  deriving DecidableEq, Repr

/-- A record of zero bytes, as `memset` and static storage leave it. -/
def Tmq.zero : Tmq := ⟨none, 0, 0, 0, 0⟩

/-- The file-level state: `static uint16_t tmq_id` and `static Tmq tmqs[TMQ_MAX_QUEUES]`.
A pointer `&tmqs[i]` is the index `i`. -/
structure Registry where
  tmq_id : Nat
  tmqs : Fin TMQ_MAX_QUEUES → Tmq

/-- The state at program start: `tmq_id = 0` and zero-initialised records. -/
def Registry.initial : Registry := ⟨0, fun _ => Tmq.zero⟩

/-- The function `TmqCreateQueue(name)`: the pointer returned (`none` is NULL) and the new
state. The increment `tmq_id++` happens below 256, so the `uint16_t` does not wrap. -/
def TmqCreateQueue (s : Registry) (name : String) : Option (Fin TMQ_MAX_QUEUES) × Registry :=
  if h : s.tmq_id ≥ TMQ_MAX_QUEUES then
    (none, s)
  else
    let q : Fin TMQ_MAX_QUEUES := ⟨s.tmq_id, Nat.lt_of_not_le h⟩
    (some q,
      { tmq_id := s.tmq_id + 1
        tmqs := Function.update s.tmqs q
          { s.tmqs q with name := some name, id := s.tmq_id, q_type := 0 } })

/-- The result of `TmqGetQueueByName`: NULL, a pointer `&tmqs[i]`, or a fault (`strcmp`
on a NULL name, or an index outside `tmqs`). -/
inductive Lookup where
  | fault
  | null
  | found (q : Fin TMQ_MAX_QUEUES)
  deriving DecidableEq, Repr

/-- The loop `for (i = 0; i < tmq_id; i++)` of `TmqGetQueueByName`, at index `i` with `k`
iterations left (`k = tmq_id - i`; the loop does not change `tmq_id`). -/
def TmqGetQueueByName.loop (s : Registry) (name : String) : Nat → Nat → Lookup
  | 0, _ => .null
  | k + 1, i =>
    if h : i < TMQ_MAX_QUEUES then
      match (s.tmqs ⟨i, h⟩).name with
      | none => .fault
      | some n => if n = name then .found ⟨i, h⟩ else TmqGetQueueByName.loop s name k (i + 1)
    else .fault

/-- The function `TmqGetQueueByName(name)`. -/
def TmqGetQueueByName (s : Registry) (name : String) : Lookup :=
  TmqGetQueueByName.loop s name s.tmq_id 0

/-- The function `TmqResetQueues()`: `memset` of `tmqs` and `tmq_id = 0`. -/
def TmqResetQueues (_s : Registry) : Registry := ⟨0, fun _ => Tmq.zero⟩

/-- A sequence of `TmqCreateQueue` calls, one per name, in order: the pointers returned
and the final state. -/
def createQueues (s : Registry) : List String → List (Option (Fin TMQ_MAX_QUEUES)) × Registry
  | [] => ([], s)
  | name :: names =>
    let r := TmqCreateQueue s name
    let rs := createQueues r.2 names
    (r.1 :: rs.1, rs.2)

/-- The identifiers behind a list of returned pointers: the index of each record. -/
def pointerIndices (qs : List (Option (Fin TMQ_MAX_QUEUES))) : List (Option Nat) :=
  qs.map (Option.map Fin.val)

/-- The registry `s` holds exactly the queues named `l`, created in this order. -/
def Created (s : Registry) (l : List String) : Prop :=
  s.tmq_id = l.length ∧ l.length ≤ TMQ_MAX_QUEUES ∧
    ∀ i : Fin TMQ_MAX_QUEUES, i.val < l.length →
      (s.tmqs i).name = l[i.val]? ∧ (s.tmqs i).id = i.val

/-- A diagnostic line of `TmValidateQueueState`, with the `name` field it prints. -/
inductive Diag where
  /-- The line `Error: Queue "name" doesn't have a reader`. -/
  | noReader (name : Option String)
  /-- The line `Error: Queue "name" doesn't have a writer`. -/
  | noWriter (name : Option String)
  deriving DecidableEq, Repr

/-- How `TmValidateQueueState` ends: it returns, it calls `exit(EXIT_FAILURE)`, or it
indexes `tmqs` outside the array. -/
inductive Outcome where
  | returned
  | exited
  | fault
  deriving DecidableEq, Repr

/-- A run of `TmValidateQueueState`: the lines printed, the indices `tmqs[i].id` used on
the table `trans_q` (for the mutex), and how the run ended. -/
structure Validation where
  diags : List Diag
  transq : List Nat
  outcome : Outcome
  deriving DecidableEq, Repr

/-- The loop `for (i = 0; i < tmq_id; i++)` of `TmValidateQueueState`, at index `i` with `k`
iterations left. The flag `err` is tested at the end of each iteration. -/
def TmValidateQueueState.loop (s : Registry) : Nat → Nat → Validation
  | 0, _ => ⟨[], [], .returned⟩
  | k + 1, i =>
    if h : i < TMQ_MAX_QUEUES then
      let q := s.tmqs ⟨i, h⟩
      let step : List Diag × Bool :=
        if q.reader_cnt = 0 then ([.noReader q.name], true)
        else if q.writer_cnt = 0 then ([.noWriter q.name], true)
        else ([], false)
      if step.2 = true then
        ⟨step.1, [q.id], .exited⟩
      else
        let r := TmValidateQueueState.loop s k (i + 1)
        ⟨step.1 ++ r.diags, q.id :: r.transq, r.outcome⟩
    else ⟨[], [], .fault⟩

/-- The function `TmValidateQueueState()`. -/
def TmValidateQueueState (s : Registry) : Validation :=
  TmValidateQueueState.loop s s.tmq_id 0

/-- A run of `TmqDebugList`: the lines printed (id, name and the length read from
`trans_q`), the indices used on `trans_q`, and whether `tmqs` was indexed outside the
array. -/
structure DebugList where
  lines : List (Nat × Option String × Nat)
  transq : List Nat
  fault : Bool
  deriving DecidableEq, Repr

/-- The loop of `TmqDebugList`, at index `i` with `k` iterations left; `qlen j` is
`trans_q[j].len`. -/
def TmqDebugList.loop (qlen : Nat → Nat) (s : Registry) : Nat → Nat → DebugList
  | 0, _ => ⟨[], [], false⟩
  | k + 1, i =>
    if h : i < TMQ_MAX_QUEUES then
      let q := s.tmqs ⟨i, h⟩
      let r := TmqDebugList.loop qlen s k (i + 1)
      ⟨(q.id, q.name, qlen q.id) :: r.lines, q.id :: r.transq, r.fault⟩
    else ⟨[], [], true⟩

/-- The function `TmqDebugList()`. -/
def TmqDebugList (qlen : Nat → Nat) (s : Registry) : DebugList :=
  TmqDebugList.loop qlen s s.tmq_id 0

/-- A call that changes the registry. -/
inductive RegistryOp where
  | create (name : String)
  | reset
  deriving DecidableEq, Repr

/-- The state after one call. -/
def applyOp (s : Registry) : RegistryOp → Registry
  | .create name => (TmqCreateQueue s name).2
  | .reset => TmqResetQueues s

/-- The state after a sequence of calls, in order. -/
def runOps (s : Registry) (ops : List RegistryOp) : Registry := ops.foldl applyOp s

/-- The registry invariant: the counter is at most `TMQ_MAX_QUEUES` and every record
below the counter holds its own index as id. -/
def RegistryInv (s : Registry) : Prop :=
  s.tmq_id ≤ TMQ_MAX_QUEUES ∧ ∀ i : Fin TMQ_MAX_QUEUES, i.val < s.tmq_id → (s.tmqs i).id = i.val

/-- The registry `s` with the reader and writer counts of the record at index `i` set, as
the thread setup outside this file does. -/
def setCounts (s : Registry) (i : Fin TMQ_MAX_QUEUES) (readers writers : Nat) : Registry :=
  { tmq_id := s.tmq_id
    tmqs := Function.update s.tmqs i
      { s.tmqs i with reader_cnt := readers, writer_cnt := writers } }

/-- Three queues `a`, `b`, `c`, all with one reader and one writer. -/
def threeQueuesOk : Registry :=
  setCounts (setCounts (setCounts (createQueues Registry.initial ["a", "b", "c"]).2
    ⟨0, by decide⟩ 1 1) ⟨1, by decide⟩ 1 1) ⟨2, by decide⟩ 1 1

/-- Three queues `a`, `b`, `c`; `b` has no reader, every other count is 1. -/
def threeQueuesNoReader : Registry :=
  setCounts (setCounts (setCounts (createQueues Registry.initial ["a", "b", "c"]).2
    ⟨0, by decide⟩ 1 1) ⟨1, by decide⟩ 0 1) ⟨2, by decide⟩ 1 1

/-- Three queues `a`, `b`, `c`; `a` has neither reader nor writer, `b` has no reader and
`c` has no writer. -/
def threeQueuesBad : Registry :=
  setCounts (setCounts (setCounts (createQueues Registry.initial ["a", "b", "c"]).2
    ⟨0, by decide⟩ 0 0) ⟨1, by decide⟩ 0 1) ⟨2, by decide⟩ 1 0

/-! ## detect-fileext.c -/

/-- The constants of other headers that `detect-fileext.c` uses; their values are not part
of this file, so every statement holds for all values. -/
structure Consts where
  DETECT_CONTENT_NEGATED : Nat
  ALPROTO_UNKNOWN : Nat
  ALPROTO_HTTP : Nat
  FILE_SIG_NEED_FILE : Nat
  FILE_SIG_NEED_FILENAME : Nat
  DETECT_FILEEXT : Nat
  DETECT_SM_LIST_FILEMATCH : Nat
  deriving DecidableEq, Repr

/-- Modelled from the spec: the record `DetectFileextData` of `detect-fileext.h`, the
parsed pattern: its bytes `ext`, their count `len` and the `flags`. -/
structure DetectFileextData where
  ext : List Nat
  len : Nat
  flags : Nat
  deriving DecidableEq, Repr

/-- Modelled from the spec: the fields of `File` that `DetectFileextMatch` reads: the name
(`none` is NULL), its length and the transaction id. -/
structure File where
  name : Option (List Nat)
  name_len : Nat
  txid : Nat
  deriving DecidableEq, Repr

/-- Modelled from the spec: `SCMemcmp(a, b, n)` of `util-memcmp.h`, the byte for byte
comparison of the first `n` bytes: 0 when they are equal, 1 otherwise; `none` when one of
the two buffers has fewer than `n` bytes. -/
def SCMemcmp (a b : List Nat) (n : Nat) : Option Int :=
  if n ≤ a.length ∧ n ≤ b.length then
    some (if a.take n = b.take n then 0 else 1)
  else none

/-- The function `DetectFileextMatch`: `tx_id` is `det_ctx->tx_id`, `file` is `state` and
`fileext` is `m->ctx`. The result is `none` when a read leaves the name or the pattern.
`offset` is `name_len - len`, positive after the guard before it. -/
def DetectFileextMatch (K : Consts) (tx_id : Nat) (file : File) (fileext : DetectFileextData) :
    Option Int :=
  match file.name with
  | none => some 0
  | some name =>
    if file.txid < tx_id then some 0
    else if file.txid > tx_id then some 0
    else if file.name_len ≤ fileext.len then some 0
    else
      let offset := file.name_len - fileext.len
      match name[offset - 1]? with
      | none => none
      | some ch =>
        let found : Option Bool :=
          if ch = 0x2e then
            (SCMemcmp (name.drop offset) fileext.ext fileext.len).map (fun r => decide (r = 0))
          else some false
        match found with
        | none => none
        | some ok =>
          let ret : Int :=
            if ok = true ∧ fileext.flags &&& K.DETECT_CONTENT_NEGATED = 0 then 1 else 0
          let ret : Int :=
            if ret = 0 ∧ fileext.flags &&& K.DETECT_CONTENT_NEGATED ≠ 0 then 1 else ret
          some ret

/-- Modelled from the spec: `DetectParseContentString` of `detect-content.c`, which
extracts a pattern and a negation flag from a quoted-or-bare string. Leading blanks are
skipped, a leading `!` sets the negation flag, a pair of enclosing double quotes is
removed, and an empty string or an empty pattern is rejected. The result is the pattern
bytes, their count and the flags written into the zeroed record. -/
def DetectParseContentString (K : Consts) (str : String) : Option (List Nat × Nat × Nat) :=
  let cs := str.toList.dropWhile Char.isWhitespace
  let neg := cs.head? = some '!'
  let cs := if neg then cs.drop 1 else cs
  let quoted := 2 ≤ cs.length ∧ cs.head? = some (Char.ofNat 34)
    ∧ cs.getLast? = some (Char.ofNat 34)
  let body := if quoted then (cs.drop 1).dropLast else cs
  if body = [] then none
  else some (body.map Char.toNat, body.length, if neg then K.DETECT_CONTENT_NEGATED else 0)

/-- The function `DetectFileextParse(str)`: `alloc` tells whether `SCMalloc` succeeds and
`parse` is `DetectParseContentString` applied to the zeroed record; `none` is NULL. -/
def DetectFileextParse (alloc : Bool) (parse : String → Option (List Nat × Nat × Nat))
    (str : String) : Option DetectFileextData :=
  if alloc = false then none
  else
    match parse str with
    | none => none
    | some (ext, len, flags) => some ⟨ext, len, flags⟩

/-- Modelled from the spec: a `SigMatch` of `detect.h`, with its keyword `type` and, as
`ctx`, the parsed pattern. -/
structure SigMatch where
  type : Nat
  ctx : DetectFileextData
  deriving DecidableEq, Repr

/-- Modelled from the spec: the fields of `Signature` that `DetectFileextSetup` uses: the
protocol, the file flags, and the match lists by list id. -/
structure Signature where
  alproto : Nat
  file_flags : Nat
  sm_lists : Nat → List SigMatch

/-- Modelled from the spec: `SigMatchAppendSMToList(s, sm, list)` of `detect-parse.c`,
which appends `sm` at the end of the match list `list` of the signature. -/
def SigMatchAppendSMToList (s : Signature) (sm : SigMatch) (list : Nat) : Signature :=
  { alproto := s.alproto
    file_flags := s.file_flags
    sm_lists := Function.update s.sm_lists list (s.sm_lists list ++ [sm]) }

/-- The calls of `DetectFileextSetup` that release memory or change global state. -/
inductive SetupEvent where
  | AppLayerHtpNeedFileInspection
  | DetectFileextFree (fileext : DetectFileextData)
  | SCFree (sm : SigMatch)
  deriving DecidableEq, Repr

/-- A run of `DetectFileextSetup`: the value returned, the signature afterwards and the
calls made. -/
structure SetupRun where
  ret : Int
  sig : Signature
  events : List SetupEvent

/-- The function `DetectFileextSetup(de_ctx, s, str)`: `alloc` tells whether the `SCMalloc`
of `DetectFileextParse` succeeds, `smAlloc` whether `SigMatchAlloc` does. -/
def DetectFileextSetup (K : Consts) (alloc : Bool)
    (parse : String → Option (List Nat × Nat × Nat)) (smAlloc : Bool)
    (s : Signature) (str : String) : SetupRun :=
  match DetectFileextParse alloc parse str with
  | none => ⟨-1, s, []⟩
  | some fileext =>
    if smAlloc = false then
      ⟨-1, s, [.DetectFileextFree fileext]⟩
    else
      let sm : SigMatch := ⟨K.DETECT_FILEEXT, fileext⟩
      let s1 := SigMatchAppendSMToList s sm K.DETECT_SM_LIST_FILEMATCH
      if s1.alproto ≠ K.ALPROTO_UNKNOWN ∧ s1.alproto ≠ K.ALPROTO_HTTP then
        ⟨-1, s1, [.DetectFileextFree fileext, .SCFree sm]⟩
      else
        ⟨0,
          { alproto := K.ALPROTO_HTTP
            file_flags := s1.file_flags ||| (K.FILE_SIG_NEED_FILE ||| K.FILE_SIG_NEED_FILENAME)
            sm_lists := s1.sm_lists },
          [.AppLayerHtpNeedFileInspection]⟩

/-! ### Concrete files, patterns and signatures -/

/-- The bytes of a string. -/
def bytes (str : String) : List Nat := str.toList.map Char.toNat

/-- A string in double quotes. -/
def quoted (str : String) : String := String.mk (Char.ofNat 34 :: str.toList ++ [Char.ofNat 34])

/-- Values of the constants for the examples. -/
def K0 : Consts :=
  { DETECT_CONTENT_NEGATED := 0x200
    ALPROTO_UNKNOWN := 0
    ALPROTO_HTTP := 1
    FILE_SIG_NEED_FILE := 0x01
    FILE_SIG_NEED_FILENAME := 0x02
    DETECT_FILEEXT := 77
    DETECT_SM_LIST_FILEMATCH := 9 }

/-- The pattern `pdf`, not negated. -/
def pdfPattern : DetectFileextData := ⟨bytes "pdf", 3, 0⟩

/-- The pattern `pdf`, negated. -/
def notPdfPattern : DetectFileextData := ⟨bytes "pdf", 3, K0.DETECT_CONTENT_NEGATED⟩

/-- A file named `report.pdf` of transaction 5. -/
def reportPdf : File := ⟨some (bytes "report.pdf"), 10, 5⟩

/-- A file named `notes.txt` of transaction 5. -/
def notesTxt : File := ⟨some (bytes "notes.txt"), 9, 5⟩

/-- A file named `a` of transaction 5. -/
def shortName : File := ⟨some (bytes "a"), 1, 5⟩

/-- A file of transaction 5 whose name is not known yet. -/
def noName : File := ⟨none, 0, 5⟩

/-- A signature without protocol and without matches, with one other file flag set. -/
def freshSignature : Signature := ⟨K0.ALPROTO_UNKNOWN, 0x04, fun _ => []⟩

/-- A signature already bound to another protocol (2), without matches. -/
def ftpSignature : Signature := ⟨2, 0, fun _ => []⟩

/-! ## Theorems: decode-teredo.c -/

/-! ### The envelope walk, one iteration at a time -/

theorem walk_unfold (pkt : List Nat) (len c : Nat) :
    walk pkt len c =
      match pkt[c]? with
      | none => ⟨[c], [], .fault c⟩
      | some b0 =>
        if b0 = 0x0 then
          match pkt[c + 1]? with
          | none => ⟨[c, c + 1], [], .fault (c + 1)⟩
          | some b1 =>
            if b1 = 0x0 then
              if (len : Int) ≥ 8 + ((0 : Int) - (c : Int)) + (IPV6_HEADER_LEN : Int) then
                ⟨c :: (c + 1) :: (walk pkt len (c + 8)).reads, c :: (walk pkt len (c + 8)).skips,
                  (walk pkt len (c + 8)).stop⟩
              else
                ⟨[c, c + 1], [], .reject⟩
            else
              ⟨[c, c + 1], [], .reject⟩
        else
          ⟨[c], [], .inner c⟩ := by
  rw [walk]
  split
  · rename_i h0; simp only [h0]
  · rename_i h0; simp only [h0]

theorem walk_fault (pkt : List Nat) (len c : Nat) (h0 : pkt[c]? = none) :
    walk pkt len c = ⟨[c], [], .fault c⟩ := by
  rw [walk_unfold, h0]

theorem walk_inner (pkt : List Nat) (len c b : Nat) (h0 : pkt[c]? = some b) (hb : b ≠ 0) :
    walk pkt len c = ⟨[c], [], .inner c⟩ := by
  rw [walk_unfold, h0]; simp [hb]

theorem walk_fault_kind (pkt : List Nat) (len c : Nat) (h0 : pkt[c]? = some 0)
    (h1 : pkt[c + 1]? = none) : walk pkt len c = ⟨[c, c + 1], [], .fault (c + 1)⟩ := by
  rw [walk_unfold, h0]; simp [h1]

theorem walk_other_kind (pkt : List Nat) (len c b : Nat) (h0 : pkt[c]? = some 0)
    (h1 : pkt[c + 1]? = some b) (hb : b ≠ 0) : walk pkt len c = ⟨[c, c + 1], [], .reject⟩ := by
  rw [walk_unfold, h0]; simp [h1, hb]

theorem walk_short (pkt : List Nat) (len c : Nat) (h0 : pkt[c]? = some 0)
    (h1 : pkt[c + 1]? = some 0) (hl : len + c < 48) :
    walk pkt len c = ⟨[c, c + 1], [], .reject⟩ := by
  rw [walk_unfold, h0]
  have hg : ¬ ((len : Int) ≥ 8 + ((0 : Int) - (c : Int)) + (IPV6_HEADER_LEN : Int)) := by
    simp only [IPV6_HEADER_LEN]; omega
  simp only [h1, if_true, if_neg hg]

theorem walk_skip (pkt : List Nat) (len c : Nat) (h0 : pkt[c]? = some 0)
    (h1 : pkt[c + 1]? = some 0) (hl : 48 ≤ len + c) :
    walk pkt len c = ⟨c :: (c + 1) :: (walk pkt len (c + 8)).reads,
      c :: (walk pkt len (c + 8)).skips, (walk pkt len (c + 8)).stop⟩ := by
  rw [walk_unfold, h0]
  have hg : (len : Int) ≥ 8 + ((0 : Int) - (c : Int)) + (IPV6_HEADER_LEN : Int) := by
    simp only [IPV6_HEADER_LEN]; omega
  simp only [h1, if_true, if_pos hg]

/-- What the guard of `case 0x0` ensures at every skipped offset `k`: the marker bytes are
`0x00 0x00`, `len >= 48 - k`, and the walk goes on from `k + 8`. -/
theorem walk_skips_guard (pkt : List Nat) (len c : Nat) :
    ∀ k ∈ (walk pkt len c).skips,
      c ≤ k ∧ pkt[k]? = some 0 ∧ pkt[k + 1]? = some 0 ∧ 48 ≤ len + k
        ∧ (walk pkt len c).stop = (walk pkt len (k + 8)).stop := by
  induction c using walk.induct pkt len with
  | case1 c h0 => simp [walk_fault _ _ _ h0]
  | case2 c h1 h0 => simp [walk_fault_kind _ _ _ h0 h1]
  | case3 c hg h0 h1 ih =>
    have hl : 48 ≤ len + c := by simp only [IPV6_HEADER_LEN] at hg; omega
    rw [walk_skip _ _ _ h0 h1 hl]
    intro k hk
    simp only [List.mem_cons] at hk
    rcases hk with rfl | hk
    · exact ⟨le_refl _, h0, h1, hl, rfl⟩
    · obtain ⟨h8, hk0, hk1, hkl, hst⟩ := ih k hk
      exact ⟨by omega, hk0, hk1, hkl, hst⟩
  | case4 c hg h0 h1 =>
    have hl : len + c < 48 := by simp only [IPV6_HEADER_LEN] at hg; omega
    simp [walk_short _ _ _ h0 h1 hl]
  | case5 c b1 h1 hb h0 => simp [walk_other_kind _ _ _ _ h0 h1 hb]
  | case6 c b0 h0 hb => simp [walk_inner _ _ _ _ h0 hb]

/-- When the loop is left at offset `k`, the byte there was read and is not the sentinel. -/
theorem walk_inner_spec (pkt : List Nat) (len c k : Nat)
    (h : (walk pkt len c).stop = .inner k) :
    c ≤ k ∧ ∃ b, pkt[k]? = some b ∧ b ≠ 0 := by
  induction c using walk.induct pkt len with
  | case1 c h0 => simp [walk_fault _ _ _ h0] at h
  | case2 c h1 h0 => simp [walk_fault_kind _ _ _ h0 h1] at h
  | case3 c hg h0 h1 ih =>
    have hl : 48 ≤ len + c := by simp only [IPV6_HEADER_LEN] at hg; omega
    rw [walk_skip _ _ _ h0 h1 hl] at h
    obtain ⟨h8, hb⟩ := ih h
    exact ⟨by omega, hb⟩
  | case4 c hg h0 h1 =>
    have hl : len + c < 48 := by simp only [IPV6_HEADER_LEN] at hg; omega
    simp [walk_short _ _ _ h0 h1 hl] at h
  | case5 c b1 h1 hb h0 => simp [walk_other_kind _ _ _ _ h0 h1 hb] at h
  | case6 c b0 h0 hb =>
    simp only [walk_inner _ _ _ _ h0 hb, Stop.inner.injEq] at h
    subst h
    exact ⟨le_refl _, b0, h0, hb⟩

/-! ### The part after the loop -/

section
variable {P TP : Type}

theorem decodeInner_bad_version (setup : P → Nat → Int → Nat → Option TP) (p : P)
    (pkt : List Nat) (len : Nat) (pq : Bool) (w : Walk) (c b : Nat)
    (h0 : pkt[c]? = some b) (hv : IP_GET_RAW_VER b ≠ 6) :
    decodeInner setup p pkt len pq w c = ⟨some 0, w.reads ++ [c], w.skips, []⟩ := by
  simp [decodeInner, h0, hv]

theorem decodeInner_bad_length (setup : P → Nat → Int → Nat → Option TP) (p : P)
    (pkt : List Nat) (len : Nat) (pq : Bool) (w : Walk) (c b b4 b5 : Nat)
    (h0 : pkt[c]? = some b) (hv : IP_GET_RAW_VER b = 6)
    (h4 : pkt[c + 4]? = some b4) (h5 : pkt[c + 5]? = some b5)
    (hl : len ≠ 40 + IPV6_GET_RAW_PLEN b4 b5 + c) :
    decodeInner setup p pkt len pq w c = ⟨some 0, w.reads ++ [c, c + 4, c + 5], w.skips, []⟩ := by
  have hne : ¬ ((len : Int) = (IPV6_HEADER_LEN : Int) + (IPV6_GET_RAW_PLEN b4 b5 : Int)
      + ((c : Int) - 0)) := by
    simp only [IPV6_HEADER_LEN]; omega
  simp only [decodeInner, h0, hv, h4, h5, if_true, if_neg hne]

theorem decodeInner_no_queue (setup : P → Nat → Int → Nat → Option TP) (p : P)
    (pkt : List Nat) (len : Nat) (w : Walk) (c b b4 b5 : Nat)
    (h0 : pkt[c]? = some b) (hv : IP_GET_RAW_VER b = 6)
    (h4 : pkt[c + 4]? = some b4) (h5 : pkt[c + 5]? = some b5)
    (hl : len = 40 + IPV6_GET_RAW_PLEN b4 b5 + c) :
    decodeInner setup p pkt len false w c
      = ⟨some 0, w.reads ++ [c, c + 4, c + 5], w.skips, []⟩ := by
  have heq : (len : Int) = (IPV6_HEADER_LEN : Int) + (IPV6_GET_RAW_PLEN b4 b5 : Int)
      + ((c : Int) - 0) := by
    simp only [IPV6_HEADER_LEN]; omega
  simp only [decodeInner, h0, hv, h4, h5, if_true, if_pos heq]
  simp

theorem decodeInner_setup_fails (setup : P → Nat → Int → Nat → Option TP) (p : P)
    (pkt : List Nat) (len : Nat) (w : Walk) (c b b4 b5 : Nat)
    (h0 : pkt[c]? = some b) (hv : IP_GET_RAW_VER b = 6)
    (h4 : pkt[c + 4]? = some b4) (h5 : pkt[c + 5]? = some b5)
    (hl : len = 40 + IPV6_GET_RAW_PLEN b4 b5 + c)
    (hs : setup p c ((len : Int) - (c : Int)) IPPROTO_IPV6 = none) :
    decodeInner setup p pkt len true w c
      = ⟨some 0, w.reads ++ [c, c + 4, c + 5], w.skips,
          [.PacketPseudoPktSetup p c ((len : Int) - (c : Int)) IPPROTO_IPV6]⟩ := by
  have heq : (len : Int) = (IPV6_HEADER_LEN : Int) + (IPV6_GET_RAW_PLEN b4 b5 : Int)
      + (c : Int) := by
    simp only [IPV6_HEADER_LEN]; omega
  simp only [decodeInner, h0, hv, h4, h5, if_true, sub_zero, if_pos heq, hs]

theorem decodeInner_success (setup : P → Nat → Int → Nat → Option TP) (p : P)
    (pkt : List Nat) (len : Nat) (w : Walk) (c b b4 b5 : Nat) (tp : TP)
    (h0 : pkt[c]? = some b) (hv : IP_GET_RAW_VER b = 6)
    (h4 : pkt[c + 4]? = some b4) (h5 : pkt[c + 5]? = some b5)
    (hl : len = 40 + IPV6_GET_RAW_PLEN b4 b5 + c)
    (hs : setup p c ((len : Int) - (c : Int)) IPPROTO_IPV6 = some tp) :
    decodeInner setup p pkt len true w c
      = ⟨some 1, w.reads ++ [c, c + 4, c + 5], w.skips,
          [.PacketPseudoPktSetup p c ((len : Int) - (c : Int)) IPPROTO_IPV6,
           .DecodeTunnel tp c ((len : Int) - (c : Int)) IPPROTO_IPV6,
           .PacketEnqueue tp,
           .SCPerfCounterIncr]⟩ := by
  have heq : (len : Int) = (IPV6_HEADER_LEN : Int) + (IPV6_GET_RAW_PLEN b4 b5 : Int)
      + (c : Int) := by
    simp only [IPV6_HEADER_LEN]; omega
  simp only [decodeInner, h0, hv, h4, h5, if_true, sub_zero, if_pos heq, hs]

theorem DecodeTeredo_of_short (setup : P → Nat → Int → Nat → Option TP) (p : P)
    (pkt : List Nat) (len : Nat) (pq : Bool) (h : len < 40) :
    DecodeTeredo setup p pkt len pq = ⟨some 0, [], [], []⟩ := by
  simp [DecodeTeredo, IPV6_HEADER_LEN, h]

theorem DecodeTeredo_of_fault (setup : P → Nat → Int → Nat → Option TP) (p : P)
    (pkt : List Nat) (len : Nat) (pq : Bool) (i : Nat) (h : 40 ≤ len)
    (hw : (walk pkt len 0).stop = .fault i) :
    DecodeTeredo setup p pkt len pq
      = ⟨none, (walk pkt len 0).reads, (walk pkt len 0).skips, []⟩ := by
  have hlt : ¬ len < IPV6_HEADER_LEN := by simp only [IPV6_HEADER_LEN]; omega
  simp only [DecodeTeredo, if_neg hlt, hw]

theorem DecodeTeredo_of_reject (setup : P → Nat → Int → Nat → Option TP) (p : P)
    (pkt : List Nat) (len : Nat) (pq : Bool) (h : 40 ≤ len)
    (hw : (walk pkt len 0).stop = .reject) :
    DecodeTeredo setup p pkt len pq
      = ⟨some 0, (walk pkt len 0).reads, (walk pkt len 0).skips, []⟩ := by
  have hlt : ¬ len < IPV6_HEADER_LEN := by simp only [IPV6_HEADER_LEN]; omega
  simp only [DecodeTeredo, if_neg hlt, hw]

theorem DecodeTeredo_of_inner (setup : P → Nat → Int → Nat → Option TP) (p : P)
    (pkt : List Nat) (len : Nat) (pq : Bool) (c : Nat) (h : 40 ≤ len)
    (hw : (walk pkt len 0).stop = .inner c) :
    DecodeTeredo setup p pkt len pq = decodeInner setup p pkt len pq (walk pkt len 0) c := by
  have hlt : ¬ len < IPV6_HEADER_LEN := by simp only [IPV6_HEADER_LEN]; omega
  simp only [DecodeTeredo, if_neg hlt, hw]

theorem decodeInner_skips (setup : P → Nat → Int → Nat → Option TP) (p : P)
    (pkt : List Nat) (len : Nat) (pq : Bool) (w : Walk) (c : Nat) :
    (decodeInner setup p pkt len pq w c).skips = w.skips := by
  unfold decodeInner
  simp only
  repeat' split
  all_goals rfl

theorem DecodeTeredo_skips (setup : P → Nat → Int → Nat → Option TP) (p : P)
    (pkt : List Nat) (len : Nat) (pq : Bool) (h : 40 ≤ len) :
    (DecodeTeredo setup p pkt len pq).skips = (walk pkt len 0).skips := by
  cases hw : (walk pkt len 0).stop with
  | fault i => rw [DecodeTeredo_of_fault setup p pkt len pq i h hw]
  | reject => rw [DecodeTeredo_of_reject setup p pkt len pq h hw]
  | inner c => rw [DecodeTeredo_of_inner setup p pkt len pq c h hw, decodeInner_skips]

/-- Everything a run that returns 1 went through. -/
theorem DecodeTeredo_ret_one (setup : P → Nat → Int → Nat → Option TP) (p : P)
    (pkt : List Nat) (len : Nat) (pq : Bool)
    (h : (DecodeTeredo setup p pkt len pq).ret = some 1) :
    40 ≤ len ∧ pq = true ∧ ∃ c b b4 b5 tp,
      (walk pkt len 0).stop = .inner c ∧ pkt[c]? = some b ∧ IP_GET_RAW_VER b = 6 ∧
      pkt[c + 4]? = some b4 ∧ pkt[c + 5]? = some b5 ∧
      len = 40 + IPV6_GET_RAW_PLEN b4 b5 + c ∧
      setup p c ((len : Int) - (c : Int)) IPPROTO_IPV6 = some tp := by
  unfold DecodeTeredo at h
  split at h
  · simp at h
  · rename_i hlen
    simp only [IPV6_HEADER_LEN, not_lt] at hlen
    simp only at h
    split at h
    · simp at h
    · simp at h
    · rename_i c hc
      unfold decodeInner at h
      split at h
      · simp at h
      · rename_i b hb
        split at h
        · rename_i hv
          split at h
          · simp at h
          · rename_i b4 h4
            split at h
            · simp at h
            · rename_i b5 h5
              simp only at h
              split at h
              · rename_i hl
                split at h
                · rename_i hpq
                  simp only [sub_zero] at h
                  split at h
                  · rename_i tp hs
                    refine ⟨hlen, hpq, c, b, b4, b5, tp, hc, hb, hv, h4, h5, ?_, hs⟩
                    simp only [IPV6_HEADER_LEN] at hl
                    omega
                  · simp at h
                · simp at h
              · simp at h
        · simp at h

/-- A run that does not return 1 made no call, or the one call of `PacketPseudoPktSetup`
that failed. -/
theorem DecodeTeredo_ret_not_one (setup : P → Nat → Int → Nat → Option TP) (p : P)
    (pkt : List Nat) (len : Nat) (pq : Bool)
    (h : (DecodeTeredo setup p pkt len pq).ret ≠ some 1) :
    (DecodeTeredo setup p pkt len pq).events = [] ∨
      ∃ c, (DecodeTeredo setup p pkt len pq).events
          = [.PacketPseudoPktSetup p c ((len : Int) - (c : Int)) IPPROTO_IPV6] ∧
        setup p c ((len : Int) - (c : Int)) IPPROTO_IPV6 = none := by
  by_cases hlen : len < 40
  · left; rw [DecodeTeredo_of_short setup p pkt len pq hlen]
  have hlen40 : 40 ≤ len := by omega
  cases hw : (walk pkt len 0).stop with
  | fault i => left; rw [DecodeTeredo_of_fault setup p pkt len pq i hlen40 hw]
  | reject => left; rw [DecodeTeredo_of_reject setup p pkt len pq hlen40 hw]
  | inner c =>
    rw [DecodeTeredo_of_inner setup p pkt len pq c hlen40 hw] at h ⊢
    cases h0 : pkt[c]? with
    | none => left; simp [decodeInner, h0]
    | some b =>
      by_cases hv : IP_GET_RAW_VER b = 6
      · cases h4 : pkt[c + 4]? with
        | none => left; simp [decodeInner, h0, hv, h4]
        | some b4 =>
          cases h5 : pkt[c + 5]? with
          | none => left; simp [decodeInner, h0, hv, h4, h5]
          | some b5 =>
            by_cases hl : len = 40 + IPV6_GET_RAW_PLEN b4 b5 + c
            · cases pq with
              | false => left; rw [decodeInner_no_queue setup p pkt len _ c b b4 b5 h0 hv h4 h5 hl]
              | true =>
                cases hs : setup p c ((len : Int) - (c : Int)) IPPROTO_IPV6 with
                | none =>
                  right
                  refine ⟨c, ?_, hs⟩
                  rw [decodeInner_setup_fails setup p pkt len _ c b b4 b5 h0 hv h4 h5 hl hs]
                | some tp =>
                  rw [decodeInner_success setup p pkt len _ c b b4 b5 tp h0 hv h4 h5 hl hs] at h
                  exact absurd rfl h
            · left; rw [decodeInner_bad_length setup p pkt len pq _ c b b4 b5 h0 hv h4 h5 hl]
      · left; rw [decodeInner_bad_version setup p pkt len pq _ c b h0 hv]

/-! ### Runs on the concrete buffers -/

theorem walk_zeros48 : walk zeros48 48 0
    = ⟨[0, 1, 8, 9, 16, 17, 24, 25, 32, 33, 40, 41, 48], [0, 8, 16, 24, 32, 40], .fault 48⟩ := by
  rw [walk_skip zeros48 48 0 (by decide) (by decide) (by decide),
    walk_skip zeros48 48 8 (by decide) (by decide) (by decide),
    walk_skip zeros48 48 16 (by decide) (by decide) (by decide),
    walk_skip zeros48 48 24 (by decide) (by decide) (by decide),
    walk_skip zeros48 48 32 (by decide) (by decide) (by decide),
    walk_skip zeros48 48 40 (by decide) (by decide) (by decide),
    walk_fault zeros48 48 48 (by decide)]

theorem walk_sixIndications : walk sixIndications 50 0
    = ⟨[0, 1, 8, 9, 16, 17, 24, 25, 32, 33, 40, 41, 48], [0, 8, 16, 24, 32, 40], .inner 48⟩ := by
  rw [walk_skip sixIndications 50 0 (by decide) (by decide) (by decide),
    walk_skip sixIndications 50 8 (by decide) (by decide) (by decide),
    walk_skip sixIndications 50 16 (by decide) (by decide) (by decide),
    walk_skip sixIndications 50 24 (by decide) (by decide) (by decide),
    walk_skip sixIndications 50 32 (by decide) (by decide) (by decide),
    walk_skip sixIndications 50 40 (by decide) (by decide) (by decide),
    walk_inner sixIndications 50 48 0x60 (by decide) (by decide)]

theorem walk_twoIndications :
    walk twoIndications 48 0 = ⟨[0, 1, 8, 9, 16], [0, 8], .inner 16⟩ := by
  rw [walk_skip twoIndications 48 0 (by decide) (by decide) (by decide),
    walk_skip twoIndications 48 8 (by decide) (by decide) (by decide),
    walk_inner twoIndications 48 16 0x60 (by decide) (by decide)]

theorem walk_oneIndication : walk oneIndication 50 0 = ⟨[0, 1, 8], [0], .inner 8⟩ := by
  rw [walk_skip oneIndication 50 0 (by decide) (by decide) (by decide),
    walk_inner oneIndication 50 8 0x60 (by decide) (by decide)]

theorem walk_authSecond : walk authSecond 56 0 = ⟨[0, 1, 8, 9], [0], .reject⟩ := by
  rw [walk_skip authSecond 56 0 (by decide) (by decide) (by decide),
    walk_other_kind authSecond 56 8 1 (by decide) (by decide) (by decide)]

theorem DecodeTeredo_oneIndication (pq : Bool) (setup : Unit → Nat → Int → Nat → Option Nat) :
    DecodeTeredo setup () oneIndication 50 pq
      = decodeInner setup () oneIndication 50 pq ⟨[0, 1, 8], [0], .inner 8⟩ 8 := by
  rw [DecodeTeredo_of_inner _ _ _ _ _ 8 (by decide) (by rw [walk_oneIndication]),
    walk_oneIndication]

theorem DecodeTeredo_oneIndication_ok :
    DecodeTeredo setupOk () oneIndication 50 true
      = ⟨some 1, [0, 1, 8, 8, 12, 13], [0],
          [.PacketPseudoPktSetup () 8 42 41, .DecodeTunnel 7 8 42 41, .PacketEnqueue 7,
           .SCPerfCounterIncr]⟩ := by
  rw [DecodeTeredo_oneIndication,
    decodeInner_success setupOk () oneIndication 50 _ 8 0x60 0 2 7 (by decide) (by decide)
      (by decide) (by decide) (by decide) rfl]
  rfl

theorem DecodeTeredo_oneIndication_setup_fails :
    DecodeTeredo setupFail () oneIndication 50 true
      = ⟨some 0, [0, 1, 8, 8, 12, 13], [0], [.PacketPseudoPktSetup () 8 42 41]⟩ := by
  rw [DecodeTeredo_oneIndication,
    decodeInner_setup_fails setupFail () oneIndication 50 _ 8 0x60 0 2 (by decide) (by decide)
      (by decide) (by decide) (by decide) rfl]
  rfl

theorem DecodeTeredo_oneIndication_no_queue :
    DecodeTeredo setupOk () oneIndication 50 false
      = ⟨some 0, [0, 1, 8, 8, 12, 13], [0], []⟩ := by
  rw [DecodeTeredo_oneIndication,
    decodeInner_no_queue setupOk () oneIndication 50 _ 8 0x60 0 2 (by decide) (by decide)
      (by decide) (by decide) (by decide)]
  rfl

theorem DecodeTeredo_version4 :
    DecodeTeredo setupOk () version4 40 true = ⟨some 0, [0, 0], [], []⟩ := by
  have hw : walk version4 40 0 = ⟨[0], [], .inner 0⟩ :=
    walk_inner version4 40 0 0x45 (by decide) (by decide)
  rw [DecodeTeredo_of_inner _ _ _ _ _ 0 (by decide) (by rw [hw]),
    decodeInner_bad_version _ _ _ _ _ _ 0 0x45 (by decide) (by decide), hw]
  rfl

theorem DecodeTeredo_plenOne :
    DecodeTeredo setupOk () plenOne 40 true = ⟨some 0, [0, 0, 4, 5], [], []⟩ := by
  have hw : walk plenOne 40 0 = ⟨[0], [], .inner 0⟩ :=
    walk_inner plenOne 40 0 0x60 (by decide) (by decide)
  rw [DecodeTeredo_of_inner _ _ _ _ _ 0 (by decide) (by rw [hw]),
    decodeInner_bad_length _ _ _ _ _ _ 0 0x60 0 1 (by decide) (by decide) (by decide)
      (by decide) (by decide), hw]
  rfl

theorem DecodeTeredo_authSecond :
    DecodeTeredo setupOk () authSecond 56 true = ⟨some 0, [0, 1, 8, 9], [0], []⟩ := by
  rw [DecodeTeredo_of_reject _ _ _ _ _ (by decide) (by rw [walk_authSecond]), walk_authSecond]

/-! ### The claims about `DecodeTeredo` -/

/-- C1 (fails on the code). `DecodeTeredo` reads outside the buffer: on the 48 zero bytes
with `len = 48` the envelope walk skips six origin indications and then reads index 48; on
the 50 bytes `sixIndications` with `len = 50` the payload-length check reads index 52. In
both runs the size of the buffer equals `len`. -/
theorem DecodeTeredo_reads_outside_buffer :
    zeros48.length = 48 ∧
    DecodeTeredo setupOk () zeros48 48 true
      = ⟨none, [0, 1, 8, 9, 16, 17, 24, 25, 32, 33, 40, 41, 48], [0, 8, 16, 24, 32, 40], []⟩ ∧
    ¬ (∀ i ∈ (DecodeTeredo setupOk () zeros48 48 true).reads, i < 48) ∧
    sixIndications.length = 50 ∧
    DecodeTeredo setupOk () sixIndications 50 true
      = ⟨none, [0, 1, 8, 9, 16, 17, 24, 25, 32, 33, 40, 41, 48, 48, 52],
          [0, 8, 16, 24, 32, 40], []⟩ := by
  have h1 : DecodeTeredo setupOk () zeros48 48 true
      = ⟨none, [0, 1, 8, 9, 16, 17, 24, 25, 32, 33, 40, 41, 48], [0, 8, 16, 24, 32, 40], []⟩ := by
    rw [DecodeTeredo_of_fault _ _ _ _ _ 48 (by decide) (by rw [walk_zeros48]), walk_zeros48]
  have h2 : DecodeTeredo setupOk () sixIndications 50 true
      = ⟨none, [0, 1, 8, 9, 16, 17, 24, 25, 32, 33, 40, 41, 48, 48, 52],
          [0, 8, 16, 24, 32, 40], []⟩ := by
    rw [DecodeTeredo_of_inner _ _ _ _ _ 48 (by decide) (by rw [walk_sixIndications]),
      walk_sixIndications]
    have h48 : sixIndications[48]? = some 0x60 := by decide
    have h52 : sixIndications[48 + 4]? = none := by decide
    have hv : IP_GET_RAW_VER 0x60 = 6 := by decide
    simp only [decodeInner, h48, h52, hv, if_true]
    rfl
  refine ⟨by decide, h1, ?_, by decide, h2⟩
  rw [h1]
  intro hall
  exact absurd (hall 48 (by decide)) (by decide)

/-- C2 (fails on the code). A second origin indication is skipped without room for the
inner header: on the 48 bytes `twoIndications` with `len = 48` the walk advances from
offset 8 to offset 16 although `48 < 8 + 8 + 40`; the function then returns 0 at the
payload-length check, after reading at offsets 16, 20 and 21. -/
theorem DecodeTeredo_skips_second_indication_unchecked :
    twoIndications.length = 48 ∧
    DecodeTeredo setupOk () twoIndications 48 true
      = ⟨some 0, [0, 1, 8, 9, 16, 16, 20, 21], [0, 8], []⟩ ∧
    8 ∈ (DecodeTeredo setupOk () twoIndications 48 true).skips ∧
    ¬ (48 ≥ 8 + 8 + IPV6_HEADER_LEN) := by
  have h1 : DecodeTeredo setupOk () twoIndications 48 true
      = ⟨some 0, [0, 1, 8, 9, 16, 16, 20, 21], [0, 8], []⟩ := by
    rw [DecodeTeredo_of_inner _ _ _ _ _ 16 (by decide) (by rw [walk_twoIndications]),
      decodeInner_bad_length _ _ _ _ _ _ 16 0x60 0 0 (by decide) (by decide) (by decide)
        (by decide) (by decide), walk_twoIndications]
    rfl
  refine ⟨by decide, h1, ?_, by decide⟩
  rw [h1]
  decide

/-- C3. `DecodeTeredo` returns 1 only if the walk consumed `c` bytes, the byte at offset
`c` has version nibble 6 and `40 + plen + c = len`, with `plen` the big-endian field at
offsets `c + 4` and `c + 5`. With any other version nibble at offset `c` it returns 0, and
with a version nibble 6 and `len` different from `40 + plen + c` it returns 0. -/
theorem DecodeTeredo_accepts_only_exact_ipv6 {P TP : Type}
    (setup : P → Nat → Int → Nat → Option TP) (p : P) (pkt : List Nat) (len : Nat) (pq : Bool) :
    ((DecodeTeredo setup p pkt len pq).ret = some 1 →
      ∃ c b b4 b5, (walk pkt len 0).stop = .inner c ∧
        pkt[c]? = some b ∧ IP_GET_RAW_VER b = 6 ∧
        pkt[c + 4]? = some b4 ∧ pkt[c + 5]? = some b5 ∧
        40 + IPV6_GET_RAW_PLEN b4 b5 + c = len) ∧
    (∀ c b, (walk pkt len 0).stop = .inner c → pkt[c]? = some b → IP_GET_RAW_VER b ≠ 6 →
      (DecodeTeredo setup p pkt len pq).ret = some 0) ∧
    (∀ c b4 b5, (walk pkt len 0).stop = .inner c →
      pkt[c + 4]? = some b4 → pkt[c + 5]? = some b5 →
      40 + IPV6_GET_RAW_PLEN b4 b5 + c ≠ len →
      (DecodeTeredo setup p pkt len pq).ret = some 0) := by
  refine ⟨?_, ?_, ?_⟩
  · intro h
    obtain ⟨_, _, c, b, b4, b5, _, hw, h0, hv, h4, h5, hl, _⟩ :=
      DecodeTeredo_ret_one setup p pkt len pq h
    exact ⟨c, b, b4, b5, hw, h0, hv, h4, h5, hl.symm⟩
  · intro c b hw h0 hv
    by_cases hlen : len < 40
    · rw [DecodeTeredo_of_short setup p pkt len pq hlen]
    · rw [DecodeTeredo_of_inner setup p pkt len pq c (by omega) hw,
        decodeInner_bad_version setup p pkt len pq _ c b h0 hv]
  · intro c b4 b5 hw h4 h5 hl
    by_cases hlen : len < 40
    · rw [DecodeTeredo_of_short setup p pkt len pq hlen]
    · obtain ⟨_, b, h0, _⟩ := walk_inner_spec pkt len 0 c hw
      rw [DecodeTeredo_of_inner setup p pkt len pq c (by omega) hw]
      by_cases hv : IP_GET_RAW_VER b = 6
      · rw [decodeInner_bad_length setup p pkt len pq _ c b b4 b5 h0 hv h4 h5
          (fun h => hl h.symm)]
      · rw [decodeInner_bad_version setup p pkt len pq _ c b h0 hv]

/-- C3 at concrete buffers: the 50 bytes `oneIndication` are accepted with `c = 8`, the
buffer `version4` (version nibble 4) gives 0, and the bare header `plenOne`, which declares
one payload byte more than the 40 bytes hold, gives 0. -/
theorem DecodeTeredo_accepts_only_exact_ipv6_witness :
    (∃ c b b4 b5, (walk oneIndication 50 0).stop = .inner c ∧
        oneIndication[c]? = some b ∧ IP_GET_RAW_VER b = 6 ∧
        oneIndication[c + 4]? = some b4 ∧ oneIndication[c + 5]? = some b5 ∧
        40 + IPV6_GET_RAW_PLEN b4 b5 + c = 50) ∧
    (DecodeTeredo setupOk () version4 40 true).ret = some 0 ∧
    (DecodeTeredo setupOk () plenOne 40 true).ret = some 0 :=
  ⟨(DecodeTeredo_accepts_only_exact_ipv6 setupOk () oneIndication 50 true).1
      (by rw [DecodeTeredo_oneIndication_ok]),
    (DecodeTeredo_accepts_only_exact_ipv6 setupOk () version4 40 true).2.1 0 0x45
      (by rw [walk_inner version4 40 0 0x45 (by decide) (by decide)]) (by decide) (by decide),
    (DecodeTeredo_accepts_only_exact_ipv6 setupOk () plenOne 40 true).2.2 0 0 1
      (by rw [walk_inner plenOne 40 0 0x60 (by decide) (by decide)]) (by decide) (by decide)
      (by decide)⟩

/-- C4. A buffer made of one origin indication (`0x00 0x00` and six bytes `a1 .. a6`)
followed by an inner header with version nibble 6 and `8 + 40 + plen = len`: with a
non-NULL queue and a pseudo-packet setup that succeeds with `tp`, `DecodeTeredo` returns 1
and calls `PacketPseudoPktSetup` once, with `p`, the bytes from offset 8, the length
`len - 8` and `IPPROTO_IPV6`; it then hands `tp` to the tunnel decoder and the queue. -/
theorem DecodeTeredo_one_origin_indication {P TP : Type}
    (setup : P → Nat → Int → Nat → Option TP) (p : P) (tp : TP)
    (a1 a2 a3 a4 a5 a6 b f1 f2 f3 b4 b5 : Nat) (rest : List Nat) (len : Nat)
    (hver : IP_GET_RAW_VER b = 6)
    (hlen : 8 + 40 + IPV6_GET_RAW_PLEN b4 b5 = len)
    (hsetup : setup p 8 ((len : Int) - 8) IPPROTO_IPV6 = some tp) :
    DecodeTeredo setup p
        (0 :: 0 :: a1 :: a2 :: a3 :: a4 :: a5 :: a6 :: b :: f1 :: f2 :: f3 :: b4 :: b5 :: rest)
        len true
      = ⟨some 1, [0, 1, 8, 8, 12, 13], [0],
          [.PacketPseudoPktSetup p 8 ((len : Int) - 8) IPPROTO_IPV6,
           .DecodeTunnel tp 8 ((len : Int) - 8) IPPROTO_IPV6,
           .PacketEnqueue tp,
           .SCPerfCounterIncr]⟩ := by
  have hb : b ≠ 0 := by
    rintro rfl
    revert hver
    decide
  have hw : walk (0 :: 0 :: a1 :: a2 :: a3 :: a4 :: a5 :: a6 :: b :: f1 :: f2 :: f3 :: b4 ::
      b5 :: rest) len 0 = ⟨[0, 1, 8], [0], .inner 8⟩ := by
    rw [walk_skip _ len 0 rfl rfl (by omega), walk_inner _ len (0 + 8) b rfl hb]
  rw [DecodeTeredo_of_inner _ _ _ _ _ 8 (by omega) (by rw [hw]), hw,
    decodeInner_success setup p _ len _ 8 b b4 b5 tp (by simp) hver (by simp) (by simp)
      (by omega)
      (by exact_mod_cast hsetup)]
  rfl

/-- C4 at the 50 bytes `oneIndication` (payload length 2, `len = 50`). -/
theorem DecodeTeredo_one_origin_indication_witness :
    IP_GET_RAW_VER 0x60 = 6 ∧ 8 + 40 + IPV6_GET_RAW_PLEN 0 2 = 50 ∧
    DecodeTeredo setupOk ()
        (0 :: 0 :: 1 :: 2 :: 3 :: 4 :: 5 :: 6 :: 0x60 :: 0 :: 0 :: 0 :: 0 :: 2 ::
          (List.replicate 34 0 ++ [1, 1])) 50 true
      = ⟨some 1, [0, 1, 8, 8, 12, 13], [0],
          [.PacketPseudoPktSetup () 8 (((50 : Nat) : Int) - 8) IPPROTO_IPV6,
           .DecodeTunnel 7 8 (((50 : Nat) : Int) - 8) IPPROTO_IPV6,
           .PacketEnqueue 7,
           .SCPerfCounterIncr]⟩ :=
  ⟨by decide, by decide,
    DecodeTeredo_one_origin_indication setupOk () 7 1 2 3 4 5 6 0x60 0 0 0 0 2
      (List.replicate 34 0 ++ [1, 1]) 50 (by decide) (by decide) rfl⟩

/-- C5. With `len < IPV6_HEADER_LEN` the function returns 0 and reads no byte, whatever
the buffer holds and with or without a queue; it makes no call either. -/
theorem DecodeTeredo_short_buffer {P TP : Type}
    (setup : P → Nat → Int → Nat → Option TP) (p : P) (pkt : List Nat) (len : Nat) (pq : Bool)
    (h : len < IPV6_HEADER_LEN) :
    (DecodeTeredo setup p pkt len pq).ret = some 0 ∧
    (DecodeTeredo setup p pkt len pq).reads = [] ∧
    (DecodeTeredo setup p pkt len pq).events = [] := by
  rw [DecodeTeredo_of_short setup p pkt len pq (by simpa [IPV6_HEADER_LEN] using h)]
  exact ⟨rfl, rfl, rfl⟩

/-- C5 at a buffer of 39 bytes that opens like an IPv6 header. -/
theorem DecodeTeredo_short_buffer_witness :
    39 < IPV6_HEADER_LEN ∧
    (DecodeTeredo setupOk () (0x60 :: List.replicate 38 0) 39 true).ret = some 0 ∧
    (DecodeTeredo setupOk () (0x60 :: List.replicate 38 0) 39 true).reads = [] ∧
    (DecodeTeredo setupOk () (0x60 :: List.replicate 38 0) 39 true).events = [] :=
  ⟨by decide, DecodeTeredo_short_buffer setupOk () (0x60 :: List.replicate 38 0) 39 true
    (by decide)⟩

/-- C6. When the walk meets, at the first offset or at a later one, the sentinel `0x00`
followed by a non-zero kind byte (`0x01`, authentication, or any other), `DecodeTeredo`
returns 0, whatever `len` and the other bytes are. -/
theorem DecodeTeredo_rejects_other_marker {P TP : Type}
    (setup : P → Nat → Int → Nat → Option TP) (p : P) (pkt : List Nat) (len : Nat) (pq : Bool)
    (c b : Nat) (hc : c ∈ (DecodeTeredo setup p pkt len pq).visited)
    (h0 : pkt[c]? = some 0) (h1 : pkt[c + 1]? = some b) (hb : b ≠ 0) :
    (DecodeTeredo setup p pkt len pq).ret = some 0 := by
  by_cases hlen : len < 40
  · rw [DecodeTeredo_of_short setup p pkt len pq hlen]
  · have hlen40 : 40 ≤ len := by omega
    have hrej : (walk pkt len c).stop = .reject := by
      rw [walk_other_kind pkt len c b h0 h1 hb]
    have hw : (walk pkt len 0).stop = .reject := by
      simp only [Run.visited, List.mem_cons, List.mem_map] at hc
      rcases hc with rfl | ⟨k, hk, rfl⟩
      · exact hrej
      · rw [DecodeTeredo_skips setup p pkt len pq hlen40] at hk
        rw [(walk_skips_guard pkt len 0 k hk).2.2.2.2]
        exact hrej
    rw [DecodeTeredo_of_reject setup p pkt len pq hlen40 hw]

/-- C6 at the first offset (the 40 bytes `authFirst` open with `0x00 0x01`) and at a later
one (the 56 bytes `authSecond` hold `0x00 0x01` at offset 8, after an origin indication). -/
theorem DecodeTeredo_rejects_other_marker_witness :
    (0 ∈ (DecodeTeredo setupOk () authFirst 40 true).visited ∧
      authFirst[0]? = some 0 ∧ authFirst[0 + 1]? = some 1 ∧
      (DecodeTeredo setupOk () authFirst 40 true).ret = some 0) ∧
    (8 ∈ (DecodeTeredo setupOk () authSecond 56 true).visited ∧
      authSecond[8]? = some 0 ∧ authSecond[8 + 1]? = some 1 ∧
      (DecodeTeredo setupOk () authSecond 56 true).ret = some 0) :=
  ⟨⟨by simp [Run.visited], by decide, by decide,
      DecodeTeredo_rejects_other_marker setupOk () authFirst 40 true 0 1
        (by simp [Run.visited]) (by decide) (by decide) (by decide)⟩,
    ⟨by rw [DecodeTeredo_authSecond]; decide, by decide, by decide,
      DecodeTeredo_rejects_other_marker setupOk () authSecond 56 true 8 1
        (by rw [DecodeTeredo_authSecond]; decide) (by decide) (by decide) (by decide)⟩⟩

/-- C7. The effects of `DecodeTeredo` itself happen exactly on success. A run that returns
1 has put exactly one packet on the queue, the one `PacketPseudoPktSetup` gave, has called
the tunnel decoder once and incremented the counter once. A run that does not return 1 has
put nothing on the queue, has not called the tunnel decoder and has not touched the
counter. With a NULL queue, or when `PacketPseudoPktSetup` yields no packet, the run does
not return 1. -/
theorem DecodeTeredo_effects_on_success_only {P TP : Type}
    (setup : P → Nat → Int → Nat → Option TP) (p : P) (pkt : List Nat) (len : Nat) (pq : Bool) :
    ((DecodeTeredo setup p pkt len pq).ret = some 1 →
      ∃ c tp, setup p c ((len : Int) - (c : Int)) IPPROTO_IPV6 = some tp ∧
        (DecodeTeredo setup p pkt len pq).events
          = [.PacketPseudoPktSetup p c ((len : Int) - (c : Int)) IPPROTO_IPV6,
             .DecodeTunnel tp c ((len : Int) - (c : Int)) IPPROTO_IPV6,
             .PacketEnqueue tp,
             .SCPerfCounterIncr] ∧
        enqueued (DecodeTeredo setup p pkt len pq).events = [tp] ∧
        tunnelCalls (DecodeTeredo setup p pkt len pq).events = 1 ∧
        counterIncrs (DecodeTeredo setup p pkt len pq).events = 1) ∧
    ((DecodeTeredo setup p pkt len pq).ret ≠ some 1 →
      enqueued (DecodeTeredo setup p pkt len pq).events = [] ∧
      tunnelCalls (DecodeTeredo setup p pkt len pq).events = 0 ∧
      counterIncrs (DecodeTeredo setup p pkt len pq).events = 0) ∧
    (pq = false → (DecodeTeredo setup p pkt len pq).ret ≠ some 1) ∧
    ((∀ c blen proto, setup p c blen proto = none) →
      (DecodeTeredo setup p pkt len pq).ret ≠ some 1) := by
  refine ⟨?_, ?_, ?_, ?_⟩
  · intro h
    obtain ⟨hlen, hpq, c, b, b4, b5, tp, hw, h0, hv, h4, h5, hl, hs⟩ :=
      DecodeTeredo_ret_one setup p pkt len pq h
    subst hpq
    refine ⟨c, tp, hs, ?_⟩
    rw [DecodeTeredo_of_inner setup p pkt len true c hlen hw,
      decodeInner_success setup p pkt len _ c b b4 b5 tp h0 hv h4 h5 hl hs]
    exact ⟨rfl, rfl, rfl, rfl⟩
  · intro h
    rcases DecodeTeredo_ret_not_one setup p pkt len pq h with he | ⟨c, he, _⟩
    · rw [he]; exact ⟨rfl, rfl, rfl⟩
    · rw [he]; exact ⟨rfl, rfl, rfl⟩
  · intro hpq h
    obtain ⟨_, hpq1, _⟩ := DecodeTeredo_ret_one setup p pkt len pq h
    rw [hpq] at hpq1
    cases hpq1
  · intro hnone h
    obtain ⟨_, _, c, _, _, _, tp, _, _, _, _, _, _, hs⟩ :=
      DecodeTeredo_ret_one setup p pkt len pq h
    rw [hnone] at hs
    cases hs

/-- C7 at the 50 bytes `oneIndication`: with a queue and a setup that succeeds the run
returns 1 with one packet enqueued; with a setup that fails, and with a NULL queue, nothing
is enqueued and the counter is untouched. -/
theorem DecodeTeredo_effects_on_success_only_witness :
    (∃ c tp, setupOk () c (((50 : Nat) : Int) - (c : Int)) IPPROTO_IPV6 = some tp ∧
        (DecodeTeredo setupOk () oneIndication 50 true).events
          = [.PacketPseudoPktSetup () c (((50 : Nat) : Int) - (c : Int)) IPPROTO_IPV6,
             .DecodeTunnel tp c (((50 : Nat) : Int) - (c : Int)) IPPROTO_IPV6,
             .PacketEnqueue tp,
             .SCPerfCounterIncr] ∧
        enqueued (DecodeTeredo setupOk () oneIndication 50 true).events = [tp] ∧
        tunnelCalls (DecodeTeredo setupOk () oneIndication 50 true).events = 1 ∧
        counterIncrs (DecodeTeredo setupOk () oneIndication 50 true).events = 1) ∧
    (enqueued (DecodeTeredo setupFail () oneIndication 50 true).events = [] ∧
      tunnelCalls (DecodeTeredo setupFail () oneIndication 50 true).events = 0 ∧
      counterIncrs (DecodeTeredo setupFail () oneIndication 50 true).events = 0) ∧
    (DecodeTeredo setupOk () oneIndication 50 false).ret ≠ some 1 :=
  ⟨(DecodeTeredo_effects_on_success_only setupOk () oneIndication 50 true).1
      (by rw [DecodeTeredo_oneIndication_ok]),
    (DecodeTeredo_effects_on_success_only setupFail () oneIndication 50 true).2.1
      (by rw [DecodeTeredo_oneIndication_setup_fails]; decide),
    (DecodeTeredo_effects_on_success_only setupOk () oneIndication 50 false).2.2.1 rfl⟩

end

/-! ## Theorems: tm-queues.c -/

theorem TmqCreateQueue_full (s : Registry) (name : String) (h : TMQ_MAX_QUEUES ≤ s.tmq_id) :
    TmqCreateQueue s name = (none, s) := by
  simp [TmqCreateQueue, h]

theorem TmqCreateQueue_room (s : Registry) (name : String) (h : s.tmq_id < TMQ_MAX_QUEUES) :
    TmqCreateQueue s name = (some ⟨s.tmq_id, h⟩,
      { tmq_id := s.tmq_id + 1
        tmqs := Function.update s.tmqs ⟨s.tmq_id, h⟩
          { s.tmqs ⟨s.tmq_id, h⟩ with name := some name, id := s.tmq_id, q_type := 0 } }) := by
  have hn : ¬ s.tmq_id ≥ TMQ_MAX_QUEUES := by omega
  simp [TmqCreateQueue, hn]

theorem Created_reset (s : Registry) : Created (TmqResetQueues s) [] := by
  refine ⟨rfl, by simp, ?_⟩
  intro i hi
  simp at hi

theorem Created_create (s : Registry) (l : List String) (name : String)
    (hc : Created s l) (hl : l.length < TMQ_MAX_QUEUES) :
    Created (TmqCreateQueue s name).2 (l ++ [name]) := by
  obtain ⟨hid, hle, hrec⟩ := hc
  have hroom : s.tmq_id < TMQ_MAX_QUEUES := by omega
  rw [TmqCreateQueue_room s name hroom]
  refine ⟨by simp [hid], by simp; omega, ?_⟩
  intro i hi
  simp only [List.length_append, List.length_singleton] at hi
  by_cases hq : i = ⟨s.tmq_id, hroom⟩
  · subst hq
    simp only [Function.update_same]
    constructor
    · simp [hid]
    · trivial
  · have hne : i.val ≠ l.length := by
      intro h
      apply hq
      apply Fin.ext
      simp [h, hid]
    have hlt : i.val < l.length := by omega
    simp only [Function.update_noteq hq]
    obtain ⟨h1, h2⟩ := hrec i hlt
    refine ⟨?_, h2⟩
    rw [h1, List.getElem?_append_left hlt]

theorem Created_createQueues (names : List String) :
    ∀ (s : Registry) (l : List String), Created s l →
      Created (createQueues s names).2 ((l ++ names).take TMQ_MAX_QUEUES) := by
  induction names with
  | nil =>
    intro s l hc
    have : (l ++ []).take TMQ_MAX_QUEUES = l := by
      rw [List.append_nil, List.take_of_length_le hc.2.1]
    rw [this]
    exact hc
  | cons name names ih =>
    intro s l hc
    simp only [createQueues]
    by_cases hl : l.length < TMQ_MAX_QUEUES
    · have := ih _ _ (Created_create s l name hc hl)
      simpa using this
    · have hfull : TMQ_MAX_QUEUES ≤ s.tmq_id := by rw [hc.1]; omega
      rw [TmqCreateQueue_full s name hfull]
      have h1 := ih s l hc
      have hlen : l.length = TMQ_MAX_QUEUES := le_antisymm hc.2.1 (by omega)
      have e1 : (l ++ names).take TMQ_MAX_QUEUES = l := by
        rw [← hlen, List.take_left']
        rfl
      have e2 : (l ++ name :: names).take TMQ_MAX_QUEUES = l := by
        rw [← hlen, List.take_left']
        rfl
      rw [e2]
      rw [e1] at h1
      exact h1

theorem createQueues_indices (names : List String) :
    ∀ s : Registry, pointerIndices (createQueues s names).1
      = (List.range names.length).map
          (fun k => if s.tmq_id + k < TMQ_MAX_QUEUES then some (s.tmq_id + k) else none) := by
  induction names with
  | nil => intro s; rfl
  | cons name names ih =>
    intro s
    simp only [createQueues, pointerIndices, List.map_cons, List.length_cons,
      List.range_succ_eq_map, List.map_map]
    have ih' := ih (TmqCreateQueue s name).2
    simp only [pointerIndices] at ih'
    rw [ih']
    by_cases hroom : s.tmq_id < TMQ_MAX_QUEUES
    · rw [TmqCreateQueue_room s name hroom]
      simp only [Option.map_some', add_zero, if_pos hroom, List.cons.injEq, true_and]
      apply List.map_congr_left
      intro k _
      simp only [Function.comp_apply, Nat.succ_eq_add_one]
      have : s.tmq_id + 1 + k = s.tmq_id + (k + 1) := by omega
      rw [this]
    · rw [TmqCreateQueue_full s name (by omega)]
      have h0 : ¬ s.tmq_id + 0 < TMQ_MAX_QUEUES := by omega
      simp only [Option.map_none', if_neg h0, List.cons.injEq, true_and]
      apply List.map_congr_left
      intro k _
      have h1 : ¬ s.tmq_id + k < TMQ_MAX_QUEUES := by omega
      have h2 : ¬ s.tmq_id + (k + 1) < TMQ_MAX_QUEUES := by omega
      simp only [Function.comp_apply, Nat.succ_eq_add_one, if_neg h1, if_neg h2]

theorem TmqGetQueueByName_loop_spec (s : Registry) (l : List String) (n : String) (hc : Created s l) :
    ∀ k i, i + k = l.length →
      (∀ q : Fin TMQ_MAX_QUEUES, TmqGetQueueByName.loop s n k i = .found q ↔
        i ≤ q.val ∧ l[q.val]? = some n ∧ ∀ j, i ≤ j → j < q.val → l[j]? ≠ some n) ∧
      (TmqGetQueueByName.loop s n k i = .null ↔ ∀ j, i ≤ j → j < l.length → l[j]? ≠ some n) := by
  intro k
  induction k with
  | zero =>
    intro i hi
    simp only [add_zero] at hi
    subst hi
    simp only [TmqGetQueueByName.loop]
    constructor
    · intro q
      constructor
      · intro h; cases h
      · rintro ⟨h1, h2, _⟩
        have : q.val < l.length := by
          by_contra hcon
          rw [List.getElem?_eq_none (by omega)] at h2
          cases h2
        omega
    · constructor
      · intro _ j h1 h2; omega
      · intro _; trivial
  | succ k ih =>
    intro i hi
    have hil : i < l.length := by omega
    have hi256 : i < TMQ_MAX_QUEUES := lt_of_lt_of_le hil hc.2.1
    have hname : (s.tmqs ⟨i, hi256⟩).name = some l[i] := by
      rw [(hc.2.2 ⟨i, hi256⟩ hil).1]
      exact List.getElem?_eq_getElem hil
    have hli : l[i]? = some l[i] := List.getElem?_eq_getElem hil
    simp only [TmqGetQueueByName.loop, dif_pos hi256, hname]
    by_cases hm : l[i] = n
    · simp only [if_pos hm]
      constructor
      · intro q
        constructor
        · intro h
          simp only [Lookup.found.injEq] at h
          subst h
          refine ⟨le_refl _, by rw [hli, hm], ?_⟩
          intro j h1 h2
          simp only at h2
          omega
        · rintro ⟨h1, h2, h3⟩
          have : q.val = i := by
            by_contra hne
            exact h3 i (le_refl _) (by omega) (by rw [hli, hm])
          simp only [Lookup.found.injEq]
          exact Fin.ext this.symm
      · constructor
        · intro h; cases h
        · intro h
          exact absurd (by rw [hli, hm]) (h i (le_refl _) hil)
    · simp only [if_neg hm]
      obtain ⟨ih1, ih2⟩ := ih (i + 1) (by omega)
      have hni : l[i]? ≠ some n := by
        rw [hli]
        intro h
        exact hm (Option.some.inj h)
      constructor
      · intro q
        rw [ih1 q]
        constructor
        · rintro ⟨h1, h2, h3⟩
          refine ⟨by omega, h2, ?_⟩
          intro j hj1 hj2
          by_cases hji : j = i
          · subst hji; exact hni
          · exact h3 j (by omega) hj2
        · rintro ⟨h1, h2, h3⟩
          have : q.val ≠ i := by
            intro h
            rw [h] at h2
            exact hni h2
          exact ⟨by omega, h2, fun j hj1 hj2 => h3 j (by omega) hj2⟩
      · rw [ih2]
        constructor
        · intro h j hj1 hj2
          by_cases hji : j = i
          · subst hji; exact hni
          · exact h j (by omega) hj2
        · intro h j hj1 hj2
          exact h j (by omega) hj2

/-! ### The claims about the queue registry -/

/-- C8. After a reset and `names.length` calls of `TmqCreateQueue`, the next call succeeds
when fewer than 256 queues exist, returning the record at index `names.length` with that
id and moving the counter to `names.length + 1`; from 256 queues on it returns NULL and
leaves the whole state as it was. Over the sequence, call `k` returns index `k` for
`k < 256` and NULL afterwards. -/
theorem TmqCreateQueue_capacity (s0 : Registry) (names : List String) (name : String) :
    (names.length < TMQ_MAX_QUEUES →
      ∃ q, (TmqCreateQueue (createQueues (TmqResetQueues s0) names).2 name).1 = some q ∧
        q.val = names.length ∧
        ((TmqCreateQueue (createQueues (TmqResetQueues s0) names).2 name).2.tmqs q).id
          = names.length ∧
        (TmqCreateQueue (createQueues (TmqResetQueues s0) names).2 name).2.tmq_id
          = names.length + 1) ∧
    (TMQ_MAX_QUEUES ≤ names.length →
      TmqCreateQueue (createQueues (TmqResetQueues s0) names).2 name
        = (none, (createQueues (TmqResetQueues s0) names).2)) ∧
    pointerIndices (createQueues (TmqResetQueues s0) names).1
      = (List.range names.length).map (fun k => if k < TMQ_MAX_QUEUES then some k else none) := by
  have hc := Created_createQueues names (TmqResetQueues s0) [] (Created_reset s0)
  simp only [List.nil_append] at hc
  refine ⟨?_, ?_, ?_⟩
  · intro hlt
    have hid : (createQueues (TmqResetQueues s0) names).2.tmq_id = names.length := by
      rw [hc.1, List.length_take]
      omega
    have hroom : (createQueues (TmqResetQueues s0) names).2.tmq_id < TMQ_MAX_QUEUES := by
      omega
    rw [TmqCreateQueue_room _ name hroom]
    refine ⟨⟨_, hroom⟩, rfl, hid, ?_, by simp only [hid]⟩
    simp only [Function.update_same, hid]
  · intro hge
    apply TmqCreateQueue_full
    rw [hc.1, List.length_take]
    omega
  · rw [createQueues_indices]
    apply List.map_congr_left
    intro k _
    have : (TmqResetQueues s0).tmq_id = 0 := rfl
    simp only [this, zero_add]

/-- C8 at concrete sequences: after two queues the third call returns index 2; after 256
queues the 257th call returns NULL and changes nothing. -/
theorem TmqCreateQueue_capacity_witness :
    (∃ q, (TmqCreateQueue (createQueues (TmqResetQueues Registry.initial) ["a", "b"]).2 "c").1
          = some q ∧
        q.val = 2 ∧
        ((TmqCreateQueue (createQueues (TmqResetQueues Registry.initial) ["a", "b"]).2
          "c").2.tmqs q).id = 2 ∧
        (TmqCreateQueue (createQueues (TmqResetQueues Registry.initial) ["a", "b"]).2
          "c").2.tmq_id = 2 + 1) ∧
    TmqCreateQueue (createQueues (TmqResetQueues Registry.initial) (List.replicate 256 "x")).2 "y"
      = (none, (createQueues (TmqResetQueues Registry.initial) (List.replicate 256 "x")).2) :=
  ⟨(TmqCreateQueue_capacity Registry.initial ["a", "b"] "c").1 (by decide),
    (TmqCreateQueue_capacity Registry.initial (List.replicate 256 "x") "y").2.1
      (by rw [List.length_replicate]; exact Nat.le_refl 256)⟩

/-- C9. After a reset and the creation of `names` (of which the first 256 succeed),
`TmqGetQueueByName n` returns the record at the smallest index whose created name is `n`,
that record has this index as id and `n` as name, and the lookup returns NULL exactly when
no created queue is named `n`. -/
theorem TmqGetQueueByName_first_match (s0 : Registry) (names : List String) (n : String) :
    (∀ q : Fin TMQ_MAX_QUEUES,
      TmqGetQueueByName (createQueues (TmqResetQueues s0) names).2 n = .found q ↔
        (names.take TMQ_MAX_QUEUES)[q.val]? = some n ∧
        ∀ j, j < q.val → (names.take TMQ_MAX_QUEUES)[j]? ≠ some n) ∧
    (∀ q : Fin TMQ_MAX_QUEUES,
      TmqGetQueueByName (createQueues (TmqResetQueues s0) names).2 n = .found q →
        ((createQueues (TmqResetQueues s0) names).2.tmqs q).id = q.val ∧
        ((createQueues (TmqResetQueues s0) names).2.tmqs q).name = some n) ∧
    (TmqGetQueueByName (createQueues (TmqResetQueues s0) names).2 n = .null ↔
      n ∉ names.take TMQ_MAX_QUEUES) := by
  have hc := Created_createQueues names (TmqResetQueues s0) [] (Created_reset s0)
  simp only [List.nil_append] at hc
  obtain ⟨h1, h2⟩ := TmqGetQueueByName_loop_spec _ _ n hc
    (createQueues (TmqResetQueues s0) names).2.tmq_id 0
    (by rw [hc.1]; simp)
  have hfound : ∀ q : Fin TMQ_MAX_QUEUES,
      TmqGetQueueByName (createQueues (TmqResetQueues s0) names).2 n = .found q ↔
        (names.take TMQ_MAX_QUEUES)[q.val]? = some n ∧
        ∀ j, j < q.val → (names.take TMQ_MAX_QUEUES)[j]? ≠ some n := by
    intro q
    unfold TmqGetQueueByName
    rw [h1 q]
    constructor
    · rintro ⟨_, h, h3⟩
      exact ⟨h, fun j hj => h3 j (Nat.zero_le _) hj⟩
    · rintro ⟨h, h3⟩
      exact ⟨Nat.zero_le _, h, fun j _ hj => h3 j hj⟩
  refine ⟨hfound, ?_, ?_⟩
  · intro q hq
    obtain ⟨hget, _⟩ := (hfound q).mp hq
    have hlt : q.val < (names.take TMQ_MAX_QUEUES).length := by
      by_contra hcon
      rw [List.getElem?_eq_none (by omega)] at hget
      cases hget
    obtain ⟨hn, hi⟩ := hc.2.2 q hlt
    exact ⟨hi, by rw [hn, hget]⟩
  · unfold TmqGetQueueByName
    rw [h2]
    constructor
    · intro h hmem
      obtain ⟨j, hj, hjn⟩ := List.getElem_of_mem hmem
      exact h j (Nat.zero_le _) hj (by rw [List.getElem?_eq_getElem hj, hjn])
    · intro h j _ hj hjn
      apply h
      rw [List.getElem?_eq_getElem hj] at hjn
      rw [← Option.some.inj hjn]
      exact List.getElem_mem hj

/-- C9 at the names `a, b, a`: both queues named `a` are created, with ids 0 and 2, the
lookup of `a` gives the record at index 0, and the lookup of `c` gives NULL. -/
theorem TmqGetQueueByName_first_match_witness :
    pointerIndices (createQueues (TmqResetQueues Registry.initial) ["a", "b", "a"]).1
      = [some 0, some 1, some 2] ∧
    TmqGetQueueByName (createQueues (TmqResetQueues Registry.initial) ["a", "b", "a"]).2 "a"
      = .found ⟨0, by decide⟩ ∧
    TmqGetQueueByName (createQueues (TmqResetQueues Registry.initial) ["a", "b", "a"]).2 "c"
      = .null :=
  ⟨by decide,
    ((TmqGetQueueByName_first_match Registry.initial ["a", "b", "a"] "a").1 ⟨0, by decide⟩).mpr
      ⟨by decide, fun j hj => absurd hj (Nat.not_lt_zero j)⟩,
    (TmqGetQueueByName_first_match Registry.initial ["a", "b", "a"] "c").2.2.mpr (by decide)⟩

/-- C10. From every state, `TmqResetQueues` followed by the creation of at most 256 names
behaves as the creation of these names from the initial state and yields the indices
0, 1, 2, ... in order; right after the reset the counter is 0, every record is zero and
every lookup returns NULL. -/
theorem TmqResetQueues_then_create (s : Registry) (names : List String)
    (h : names.length ≤ TMQ_MAX_QUEUES) :
    createQueues (TmqResetQueues s) names = createQueues Registry.initial names ∧
    pointerIndices (createQueues (TmqResetQueues s) names).1
      = (List.range names.length).map some ∧
    (TmqResetQueues s).tmq_id = 0 ∧
    (∀ i, (TmqResetQueues s).tmqs i = Tmq.zero) ∧
    ∀ n, TmqGetQueueByName (TmqResetQueues s) n = .null := by
  refine ⟨rfl, ?_, rfl, fun _ => rfl, fun _ => rfl⟩
  rw [createQueues_indices]
  apply List.map_congr_left
  intro k hk
  have h0 : (TmqResetQueues s).tmq_id = 0 := rfl
  have hlt : k < TMQ_MAX_QUEUES := lt_of_lt_of_le (List.mem_range.mp hk) h
  simp only [h0, zero_add, if_pos hlt]

/-- C10 at a registry that already holds the queues `x, y`: after the reset the names
`a, b, a` get the indices 0, 1, 2 again. -/
theorem TmqResetQueues_then_create_witness :
    ["a", "b", "a"].length ≤ TMQ_MAX_QUEUES ∧
    createQueues (TmqResetQueues (createQueues Registry.initial ["x", "y"]).2) ["a", "b", "a"]
      = createQueues Registry.initial ["a", "b", "a"] ∧
    pointerIndices
        (createQueues (TmqResetQueues (createQueues Registry.initial ["x", "y"]).2)
          ["a", "b", "a"]).1
      = (List.range ["a", "b", "a"].length).map some ∧
    (TmqResetQueues (createQueues Registry.initial ["x", "y"]).2).tmq_id = 0 ∧
    (∀ i, (TmqResetQueues (createQueues Registry.initial ["x", "y"]).2).tmqs i = Tmq.zero) ∧
    ∀ n, TmqGetQueueByName (TmqResetQueues (createQueues Registry.initial ["x", "y"]).2) n
      = .null :=
  ⟨by decide,
    TmqResetQueues_then_create (createQueues Registry.initial ["x", "y"]).2 ["a", "b", "a"]
      (by decide)⟩

/-! ### The validation loop and the registry invariant -/

theorem TmValidateQueueState_loop_noReader (s : Registry) (k i : Nat)
    (hi : i < TMQ_MAX_QUEUES) (hr : (s.tmqs ⟨i, hi⟩).reader_cnt = 0) :
    TmValidateQueueState.loop s (k + 1) i
      = ⟨[.noReader (s.tmqs ⟨i, hi⟩).name], [(s.tmqs ⟨i, hi⟩).id], .exited⟩ := by
  simp [TmValidateQueueState.loop, hi, hr]

theorem TmValidateQueueState_loop_noWriter (s : Registry) (k i : Nat)
    (hi : i < TMQ_MAX_QUEUES) (hr : (s.tmqs ⟨i, hi⟩).reader_cnt ≠ 0)
    (hw : (s.tmqs ⟨i, hi⟩).writer_cnt = 0) :
    TmValidateQueueState.loop s (k + 1) i
      = ⟨[.noWriter (s.tmqs ⟨i, hi⟩).name], [(s.tmqs ⟨i, hi⟩).id], .exited⟩ := by
  simp [TmValidateQueueState.loop, hi, hr, hw]

theorem TmValidateQueueState_loop_next (s : Registry) (k i : Nat)
    (hi : i < TMQ_MAX_QUEUES) (hr : (s.tmqs ⟨i, hi⟩).reader_cnt ≠ 0)
    (hw : (s.tmqs ⟨i, hi⟩).writer_cnt ≠ 0) :
    TmValidateQueueState.loop s (k + 1) i
      = ⟨(TmValidateQueueState.loop s k (i + 1)).diags,
          (s.tmqs ⟨i, hi⟩).id :: (TmValidateQueueState.loop s k (i + 1)).transq,
          (TmValidateQueueState.loop s k (i + 1)).outcome⟩ := by
  simp [TmValidateQueueState.loop, hi, hr, hw]

/-- A run of the validation loop over the records `i .. i + k - 1` either returns with no
line printed, all these records having a reader and a writer, or exits at the first record
that lacks one, with the single line for that record. -/
theorem TmValidateQueueState_loop_spec (s : Registry) :
    ∀ k i, i + k ≤ TMQ_MAX_QUEUES →
      ((TmValidateQueueState.loop s k i).outcome = .returned ∧
        (TmValidateQueueState.loop s k i).diags = [] ∧
        ∀ j : Fin TMQ_MAX_QUEUES, i ≤ j.val → j.val < i + k →
          (s.tmqs j).reader_cnt ≠ 0 ∧ (s.tmqs j).writer_cnt ≠ 0) ∨
      ((TmValidateQueueState.loop s k i).outcome = .exited ∧
        ∃ q : Fin TMQ_MAX_QUEUES, i ≤ q.val ∧ q.val < i + k ∧
          (∀ j : Fin TMQ_MAX_QUEUES, i ≤ j.val → j.val < q.val →
            (s.tmqs j).reader_cnt ≠ 0 ∧ (s.tmqs j).writer_cnt ≠ 0) ∧
          (((s.tmqs q).reader_cnt = 0 ∧
              (TmValidateQueueState.loop s k i).diags = [.noReader (s.tmqs q).name]) ∨
            ((s.tmqs q).reader_cnt ≠ 0 ∧ (s.tmqs q).writer_cnt = 0 ∧
              (TmValidateQueueState.loop s k i).diags = [.noWriter (s.tmqs q).name]))) := by
  intro k
  induction k with
  | zero =>
    intro i _
    left
    refine ⟨rfl, rfl, ?_⟩
    intro j h1 h2
    omega
  | succ k ih =>
    intro i hik
    have hi : i < TMQ_MAX_QUEUES := by omega
    by_cases hr : (s.tmqs ⟨i, hi⟩).reader_cnt = 0
    · right
      rw [TmValidateQueueState_loop_noReader s k i hi hr]
      refine ⟨rfl, ⟨i, hi⟩, le_refl _, by simp, ?_, Or.inl ⟨hr, rfl⟩⟩
      intro j h1 h2
      simp only at h2
      omega
    · by_cases hw : (s.tmqs ⟨i, hi⟩).writer_cnt = 0
      · right
        rw [TmValidateQueueState_loop_noWriter s k i hi hr hw]
        refine ⟨rfl, ⟨i, hi⟩, le_refl _, by simp, ?_, Or.inr ⟨hr, hw, rfl⟩⟩
        intro j h1 h2
        simp only at h2
        omega
      · rw [TmValidateQueueState_loop_next s k i hi hr hw]
        have hstep : ∀ j : Fin TMQ_MAX_QUEUES, i ≤ j.val → ¬ i + 1 ≤ j.val →
            (s.tmqs j).reader_cnt ≠ 0 ∧ (s.tmqs j).writer_cnt ≠ 0 := by
          intro j h1 h2
          have : j = ⟨i, hi⟩ := Fin.ext (by simp only; omega)
          rw [this]
          exact ⟨hr, hw⟩
        rcases ih (i + 1) (by omega) with ⟨h1, h2, h3⟩ | ⟨h1, q, hq1, hq2, hq3, hq4⟩
        · left
          refine ⟨h1, h2, ?_⟩
          intro j hj1 hj2
          by_cases hji : i + 1 ≤ j.val
          · exact h3 j hji (by omega)
          · exact hstep j hj1 hji
        · right
          refine ⟨h1, q, by omega, by omega, ?_, hq4⟩
          intro j hj1 hj2
          by_cases hji : i + 1 ≤ j.val
          · exact hq3 j hji hj2
          · exact hstep j hj1 hji

theorem TmValidateQueueState_loop_transq (s : Registry) (hinv : RegistryInv s) :
    ∀ k i, i + k ≤ s.tmq_id →
      (TmValidateQueueState.loop s k i).outcome ≠ .fault ∧
      ∀ j ∈ (TmValidateQueueState.loop s k i).transq, j < TMQ_MAX_QUEUES := by
  intro k
  induction k with
  | zero =>
    intro i _
    refine ⟨by simp [TmValidateQueueState.loop], ?_⟩
    intro j hj
    simp [TmValidateQueueState.loop] at hj
  | succ k ih =>
    intro i hik
    have hi : i < TMQ_MAX_QUEUES := by have := hinv.1; omega
    have hid : (s.tmqs ⟨i, hi⟩).id = i := hinv.2 ⟨i, hi⟩ (by simp only; omega)
    obtain ⟨ih1, ih2⟩ := ih (i + 1) (by omega)
    by_cases hr : (s.tmqs ⟨i, hi⟩).reader_cnt = 0
    · rw [TmValidateQueueState_loop_noReader s k i hi hr, hid]
      refine ⟨by simp, ?_⟩
      intro j hj
      simp only [List.mem_singleton] at hj
      omega
    · by_cases hw : (s.tmqs ⟨i, hi⟩).writer_cnt = 0
      · rw [TmValidateQueueState_loop_noWriter s k i hi hr hw, hid]
        refine ⟨by simp, ?_⟩
        intro j hj
        simp only [List.mem_singleton] at hj
        omega
      · rw [TmValidateQueueState_loop_next s k i hi hr hw, hid]
        refine ⟨ih1, ?_⟩
        intro j hj
        simp only [List.mem_cons] at hj
        rcases hj with rfl | hj
        · exact hi
        · exact ih2 j hj

theorem TmqDebugList_loop_transq (qlen : Nat → Nat) (s : Registry) (hinv : RegistryInv s) :
    ∀ k i, i + k ≤ s.tmq_id →
      (TmqDebugList.loop qlen s k i).fault = false ∧
      ∀ j ∈ (TmqDebugList.loop qlen s k i).transq, j < TMQ_MAX_QUEUES := by
  intro k
  induction k with
  | zero =>
    intro i _
    refine ⟨rfl, ?_⟩
    intro j hj
    simp [TmqDebugList.loop] at hj
  | succ k ih =>
    intro i hik
    have hi : i < TMQ_MAX_QUEUES := by have := hinv.1; omega
    have hid : (s.tmqs ⟨i, hi⟩).id = i := hinv.2 ⟨i, hi⟩ (by simp only; omega)
    obtain ⟨ih1, ih2⟩ := ih (i + 1) (by omega)
    simp only [TmqDebugList.loop, dif_pos hi, hid]
    refine ⟨ih1, ?_⟩
    intro j hj
    simp only [List.mem_cons] at hj
    rcases hj with rfl | hj
    · exact hi
    · exact ih2 j hj

theorem RegistryInv_reset (s : Registry) : RegistryInv (TmqResetQueues s) := by
  refine ⟨Nat.zero_le _, ?_⟩
  intro i hi
  exact absurd hi (Nat.not_lt_zero _)

theorem RegistryInv_create (s : Registry) (name : String) (h : RegistryInv s) :
    RegistryInv (TmqCreateQueue s name).2 := by
  by_cases hroom : s.tmq_id < TMQ_MAX_QUEUES
  · rw [TmqCreateQueue_room s name hroom]
    refine ⟨hroom, ?_⟩
    intro i hi
    simp only at hi
    by_cases hq : i = ⟨s.tmq_id, hroom⟩
    · subst hq
      simp only [Function.update_same]
    · have hne : i.val ≠ s.tmq_id := fun hv => hq (Fin.ext hv)
      simp only [Function.update_noteq hq]
      exact h.2 i (by omega)
  · rw [TmqCreateQueue_full s name (by omega)]
    exact h

theorem RegistryInv_runOps (ops : List RegistryOp) :
    ∀ s, RegistryInv s → RegistryInv (runOps s ops) := by
  induction ops with
  | nil => intro s h; exact h
  | cons op ops ih =>
    intro s h
    simp only [runOps, List.foldl_cons]
    apply ih
    cases op with
    | create name => exact RegistryInv_create s name h
    | reset => exact RegistryInv_reset s

/-! ### The claims about `TmValidateQueueState` and the registry invariant -/

/-- C11. With the counter at most 256, `TmValidateQueueState` returns without printing
exactly when every created queue has at least one reader and one writer, and otherwise it
exits. When one created queue `q` has no reader and every other count of a created queue
is at least 1, the only line printed is the missing-reader line of `q`. -/
theorem TmValidateQueueState_passes_iff (s : Registry) (h : s.tmq_id ≤ TMQ_MAX_QUEUES) :
    (((TmValidateQueueState s).outcome = .returned ∧ (TmValidateQueueState s).diags = []) ↔
      ∀ i : Fin TMQ_MAX_QUEUES, i.val < s.tmq_id →
        1 ≤ (s.tmqs i).reader_cnt ∧ 1 ≤ (s.tmqs i).writer_cnt) ∧
    ((TmValidateQueueState s).outcome = .returned ∨
      (TmValidateQueueState s).outcome = .exited) ∧
    (∀ q : Fin TMQ_MAX_QUEUES, q.val < s.tmq_id →
      (s.tmqs q).reader_cnt = 0 → 1 ≤ (s.tmqs q).writer_cnt →
      (∀ i : Fin TMQ_MAX_QUEUES, i.val < s.tmq_id → i ≠ q →
        1 ≤ (s.tmqs i).reader_cnt ∧ 1 ≤ (s.tmqs i).writer_cnt) →
      (TmValidateQueueState s).diags = [.noReader (s.tmqs q).name] ∧
      (TmValidateQueueState s).outcome = .exited) := by
  have hspec := TmValidateQueueState_loop_spec s s.tmq_id 0 (by omega)
  unfold TmValidateQueueState
  refine ⟨?_, ?_, ?_⟩
  · constructor
    · rintro ⟨hret, _⟩ i hi
      rcases hspec with ⟨_, _, hall⟩ | ⟨hex, _⟩
      · have := hall i (Nat.zero_le _) (by omega)
        omega
      · rw [hret] at hex
        cases hex
    · intro hall
      rcases hspec with ⟨h1, h2, _⟩ | ⟨_, q, _, hq, _, hbad⟩
      · exact ⟨h1, h2⟩
      · have := hall q (by omega)
        rcases hbad with ⟨h0, _⟩ | ⟨_, h0, _⟩ <;> omega
  · rcases hspec with ⟨h1, _, _⟩ | ⟨h1, _⟩
    · exact Or.inl h1
    · exact Or.inr h1
  · intro q hq hr hw hothers
    rcases hspec with ⟨_, _, hall⟩ | ⟨hex, q', _, hq', hbefore, hbad⟩
    · exact absurd hr (hall q (Nat.zero_le _) (by omega)).1
    · have hqq : q' = q := by
        by_contra hne
        have := hothers q' (by omega) hne
        rcases hbad with ⟨h0, _⟩ | ⟨_, h0, _⟩ <;> omega
      subst hqq
      rcases hbad with ⟨_, hd⟩ | ⟨hr', _, _⟩
      · exact ⟨hd, hex⟩
      · exact absurd hr hr'

theorem threeQueuesOk_counts (i : Fin TMQ_MAX_QUEUES) (hi : i.val < threeQueuesOk.tmq_id) :
    1 ≤ (threeQueuesOk.tmqs i).reader_cnt ∧ 1 ≤ (threeQueuesOk.tmqs i).writer_cnt := by
  obtain ⟨v, hv⟩ := i
  have h3 : v < 3 := hi
  clear hi
  interval_cases v <;> (revert hv; decide)

theorem threeQueuesNoReader_others (i : Fin TMQ_MAX_QUEUES)
    (hi : i.val < threeQueuesNoReader.tmq_id) (hne : i ≠ ⟨1, by decide⟩) :
    1 ≤ (threeQueuesNoReader.tmqs i).reader_cnt ∧
      1 ≤ (threeQueuesNoReader.tmqs i).writer_cnt := by
  obtain ⟨v, hv⟩ := i
  have h3 : v < 3 := hi
  clear hi
  interval_cases v
  · clear hne; revert hv; decide
  · exact absurd rfl hne
  · clear hne; revert hv; decide

/-- C11 at three queues: with all counts 1 the validation returns without a line; with no
reader on `b` alone it prints the missing-reader line of `b` and exits. -/
theorem TmValidateQueueState_passes_iff_witness :
    ((TmValidateQueueState threeQueuesOk).outcome = .returned ∧
      (TmValidateQueueState threeQueuesOk).diags = []) ∧
    ((TmValidateQueueState threeQueuesNoReader).diags
        = [.noReader (threeQueuesNoReader.tmqs ⟨1, by decide⟩).name] ∧
      (TmValidateQueueState threeQueuesNoReader).outcome = .exited) ∧
    (threeQueuesNoReader.tmqs ⟨1, by decide⟩).name = some "b" :=
  ⟨(TmValidateQueueState_passes_iff threeQueuesOk (by decide)).1.mpr threeQueuesOk_counts,
    (TmValidateQueueState_passes_iff threeQueuesNoReader (by decide)).2.2 ⟨1, by decide⟩
      (by decide) (by decide) (by decide) threeQueuesNoReader_others,
    by decide⟩

/-- C12 (as stated, false). On `threeQueuesBad` the validation exits after the single
line for `a`: the queue `b`, which has no reader, gets no missing-reader line, and the
queues `a` and `c`, which have no writer, get no missing-writer line. -/
theorem TmValidateQueueState_reports_all_counterexample :
    (TmValidateQueueState threeQueuesBad).outcome = .exited ∧
    (TmValidateQueueState threeQueuesBad).diags = [.noReader (some "a")] ∧
    ¬ ((∀ i : Fin TMQ_MAX_QUEUES, i.val < threeQueuesBad.tmq_id →
          (threeQueuesBad.tmqs i).reader_cnt = 0 →
          Diag.noReader (threeQueuesBad.tmqs i).name ∈ (TmValidateQueueState threeQueuesBad).diags) ∧
        (∀ i : Fin TMQ_MAX_QUEUES, i.val < threeQueuesBad.tmq_id →
          (threeQueuesBad.tmqs i).writer_cnt = 0 →
          Diag.noWriter (threeQueuesBad.tmqs i).name
            ∈ (TmValidateQueueState threeQueuesBad).diags)) := by
  refine ⟨by decide, by decide, ?_⟩
  rintro ⟨hreaders, _⟩
  have hb := hreaders ⟨1, by decide⟩ (by decide) (by decide)
  revert hb
  decide

/-- C12 (amended). When the validation exits, with the counter at most 256, it has printed
exactly one line, for the first created queue `q` that lacks a reader or a writer: the
missing-reader line when `q` has no reader, otherwise the missing-writer line. -/
theorem TmValidateQueueState_reports_first_offender (s : Registry)
    (h : s.tmq_id ≤ TMQ_MAX_QUEUES) (hfail : (TmValidateQueueState s).outcome = .exited) :
    ∃ q : Fin TMQ_MAX_QUEUES, q.val < s.tmq_id ∧
      (∀ j : Fin TMQ_MAX_QUEUES, j.val < q.val →
        (s.tmqs j).reader_cnt ≠ 0 ∧ (s.tmqs j).writer_cnt ≠ 0) ∧
      (((s.tmqs q).reader_cnt = 0 ∧
          (TmValidateQueueState s).diags = [.noReader (s.tmqs q).name]) ∨
        ((s.tmqs q).reader_cnt ≠ 0 ∧ (s.tmqs q).writer_cnt = 0 ∧
          (TmValidateQueueState s).diags = [.noWriter (s.tmqs q).name])) := by
  unfold TmValidateQueueState at hfail ⊢
  rcases TmValidateQueueState_loop_spec s s.tmq_id 0 (by omega) with
    ⟨hret, _, _⟩ | ⟨_, q, _, hq, hbefore, hbad⟩
  · rw [hret] at hfail
    cases hfail
  · exact ⟨q, by omega, fun j hj => hbefore j (Nat.zero_le _) hj, hbad⟩

/-- C12 (amended) at `threeQueuesBad`, where the validation exits. -/
theorem TmValidateQueueState_reports_first_offender_witness :
    threeQueuesBad.tmq_id ≤ TMQ_MAX_QUEUES ∧
    (TmValidateQueueState threeQueuesBad).outcome = .exited ∧
    ∃ q : Fin TMQ_MAX_QUEUES, q.val < threeQueuesBad.tmq_id ∧
      (∀ j : Fin TMQ_MAX_QUEUES, j.val < q.val →
        (threeQueuesBad.tmqs j).reader_cnt ≠ 0 ∧ (threeQueuesBad.tmqs j).writer_cnt ≠ 0) ∧
      (((threeQueuesBad.tmqs q).reader_cnt = 0 ∧
          (TmValidateQueueState threeQueuesBad).diags
            = [.noReader (threeQueuesBad.tmqs q).name]) ∨
        ((threeQueuesBad.tmqs q).reader_cnt ≠ 0 ∧ (threeQueuesBad.tmqs q).writer_cnt = 0 ∧
          (TmValidateQueueState threeQueuesBad).diags
            = [.noWriter (threeQueuesBad.tmqs q).name])) :=
  ⟨by decide, by decide,
    TmValidateQueueState_reports_first_offender threeQueuesBad (by decide) (by decide)⟩

theorem RegistryInv_setCounts (s : Registry) (i : Fin TMQ_MAX_QUEUES) (readers writers : Nat)
    (h : RegistryInv s) : RegistryInv (setCounts s i readers writers) := by
  refine ⟨h.1, ?_⟩
  intro k hk
  simp only [setCounts] at hk ⊢
  by_cases hki : k = i
  · subst hki
    simp only [Function.update_same]
    exact h.2 k hk
  · simp only [Function.update_noteq hki]
    exact h.2 k hk

/-- C19. Every state reached from the initial registry, or from a reset one, by calls of
`TmqCreateQueue` and `TmqResetQueues` has its counter at most 256 and the id `i` in every
record below the counter, and setting reader and writer counts keeps this. On every
registry with this invariant, whatever its reader and writer counts are,
`TmValidateQueueState` and `TmqDebugList` stay inside `tmqs` and, in every iteration, use
only indices below 256 on `trans_q`. -/
theorem RegistryInv_reachable (ops : List RegistryOp) (s0 : Registry) (qlen : Nat → Nat) :
    RegistryInv (runOps Registry.initial ops) ∧
    RegistryInv (runOps (TmqResetQueues s0) ops) ∧
    (∀ (s : Registry) (i : Fin TMQ_MAX_QUEUES) (readers writers : Nat),
      RegistryInv s → RegistryInv (setCounts s i readers writers)) ∧
    (∀ s : Registry, RegistryInv s →
      (TmValidateQueueState s).outcome ≠ .fault ∧
      ∀ j ∈ (TmValidateQueueState s).transq, j < TMQ_MAX_QUEUES) ∧
    (∀ s : Registry, RegistryInv s →
      (TmqDebugList qlen s).fault = false ∧
      ∀ j ∈ (TmqDebugList qlen s).transq, j < TMQ_MAX_QUEUES) := by
  refine ⟨RegistryInv_runOps ops _ (RegistryInv_reset Registry.initial),
    RegistryInv_runOps ops _ (RegistryInv_reset s0), ?_, ?_, ?_⟩
  · intro s i readers writers h
    exact RegistryInv_setCounts s i readers writers h
  · intro s h
    exact TmValidateQueueState_loop_transq s h s.tmq_id 0 (by omega)
  · intro s h
    exact TmqDebugList_loop_transq qlen s h s.tmq_id 0 (by omega)

/-- C19 at the three queues `a`, `b`, `c` with one reader and one writer each: the state
has the invariant, the validation visits all three records and uses the indices 0, 1, 2
on `trans_q`, and so does `TmqDebugList`. -/
theorem RegistryInv_reachable_witness :
    RegistryInv threeQueuesOk ∧
    (TmValidateQueueState threeQueuesOk).transq = [0, 1, 2] ∧
    ((TmValidateQueueState threeQueuesOk).outcome ≠ .fault ∧
      ∀ j ∈ (TmValidateQueueState threeQueuesOk).transq, j < TMQ_MAX_QUEUES) ∧
    (TmqDebugList (fun _ => 0) threeQueuesOk).transq = [0, 1, 2] ∧
    ((TmqDebugList (fun _ => 0) threeQueuesOk).fault = false ∧
      ∀ j ∈ (TmqDebugList (fun _ => 0) threeQueuesOk).transq, j < TMQ_MAX_QUEUES) :=
  have hcreated : RegistryInv (createQueues Registry.initial ["a", "b", "c"]).2 :=
    (RegistryInv_reachable [.create "a", .create "b", .create "c"] Registry.initial
      (fun _ => 0)).1
  have hinv : RegistryInv threeQueuesOk :=
    (RegistryInv_reachable [] Registry.initial (fun _ => 0)).2.2.1 _ _ 1 1
      ((RegistryInv_reachable [] Registry.initial (fun _ => 0)).2.2.1 _ _ 1 1
        ((RegistryInv_reachable [] Registry.initial (fun _ => 0)).2.2.1 _ _ 1 1 hcreated))
  ⟨hinv, by decide,
    (RegistryInv_reachable [] Registry.initial (fun _ => 0)).2.2.2.1 threeQueuesOk hinv,
    by decide,
    (RegistryInv_reachable [] Registry.initial (fun _ => 0)).2.2.2.2 threeQueuesOk hinv⟩

/-! ### The derived packet lies inside the buffer -/

/-- When the walk entered at `c` leaves the loop at `k`, `k - c` is a multiple of 8 and no
read of the walk is above `k`. -/
theorem walk_inner_reads (pkt : List Nat) (len c k : Nat)
    (h : (walk pkt len c).stop = .inner k) :
    (∃ n, k = c + 8 * n) ∧ ∀ i ∈ (walk pkt len c).reads, i ≤ k := by
  induction c using walk.induct pkt len with
  | case1 c h0 => simp [walk_fault _ _ _ h0] at h
  | case2 c h1 h0 => simp [walk_fault_kind _ _ _ h0 h1] at h
  | case3 c hg h0 h1 ih =>
    have hl : 48 ≤ len + c := by simp only [IPV6_HEADER_LEN] at hg; omega
    rw [walk_skip _ _ _ h0 h1 hl] at h ⊢
    obtain ⟨⟨n, hn⟩, hreads⟩ := ih h
    refine ⟨⟨n + 1, by omega⟩, ?_⟩
    intro i hi
    simp only [List.mem_cons] at hi
    rcases hi with rfl | rfl | hi
    · omega
    · omega
    · exact hreads i hi
  | case4 c hg h0 h1 =>
    have hl : len + c < 48 := by simp only [IPV6_HEADER_LEN] at hg; omega
    simp [walk_short _ _ _ h0 h1 hl] at h
  | case5 c b1 h1 hb h0 => simp [walk_other_kind _ _ _ _ h0 h1 hb] at h
  | case6 c b0 h0 hb =>
    rw [walk_inner _ _ _ _ h0 hb] at h ⊢
    simp only [Stop.inner.injEq] at h
    subst h
    exact ⟨⟨0, by omega⟩, by simp⟩

/-- C18. A run of `DecodeTeredo` that returns 1 consumed an envelope of `c` bytes with `c`
a multiple of 8 and `c + 40 <= len`; the byte at offset `c` has version nibble 6; the
length given to `PacketPseudoPktSetup` and to `DecodeTunnel` is `len - c = 40 + plen`,
between 40 and `len`; and every index read is below `len` and inside the buffer. -/
theorem DecodeTeredo_success_inside_buffer {P TP : Type}
    (setup : P → Nat → Int → Nat → Option TP) (p : P) (pkt : List Nat) (len : Nat) (pq : Bool)
    (h : (DecodeTeredo setup p pkt len pq).ret = some 1) :
    ∃ c b b4 b5 tp, (walk pkt len 0).stop = .inner c ∧ 8 ∣ c ∧ c + 40 ≤ len ∧
      pkt[c]? = some b ∧ IP_GET_RAW_VER b = 6 ∧
      pkt[c + 4]? = some b4 ∧ pkt[c + 5]? = some b5 ∧
      (DecodeTeredo setup p pkt len pq).events
        = [.PacketPseudoPktSetup p c ((len : Int) - (c : Int)) IPPROTO_IPV6,
           .DecodeTunnel tp c ((len : Int) - (c : Int)) IPPROTO_IPV6,
           .PacketEnqueue tp,
           .SCPerfCounterIncr] ∧
      (len : Int) - (c : Int) = 40 + (IPV6_GET_RAW_PLEN b4 b5 : Int) ∧
      (40 : Int) ≤ (len : Int) - (c : Int) ∧ (len : Int) - (c : Int) ≤ (len : Int) ∧
      ∀ i ∈ (DecodeTeredo setup p pkt len pq).reads, i < len ∧ i < pkt.length := by
  obtain ⟨hlen, hpq, c, b, b4, b5, tp, hw, h0, hv, h4, h5, hl, hs⟩ :=
    DecodeTeredo_ret_one setup p pkt len pq h
  subst hpq
  obtain ⟨⟨n, hn⟩, hreads⟩ := walk_inner_reads pkt len 0 c hw
  have h5lt : c + 5 < pkt.length := by
    by_contra hcon
    rw [List.getElem?_eq_none (by omega)] at h5
    cases h5
  refine ⟨c, b, b4, b5, tp, hw, ⟨n, by omega⟩, by omega, h0, hv, h4, h5, ?_, by omega,
    by omega, by omega, ?_⟩
  · rw [DecodeTeredo_of_inner setup p pkt len true c hlen hw,
      decodeInner_success setup p pkt len _ c b b4 b5 tp h0 hv h4 h5 hl hs]
  · rw [DecodeTeredo_of_inner setup p pkt len true c hlen hw,
      decodeInner_success setup p pkt len _ c b b4 b5 tp h0 hv h4 h5 hl hs]
    intro i hi
    simp only [List.mem_append, List.mem_cons, List.mem_singleton, List.not_mem_nil,
      or_false] at hi
    rcases hi with hi | rfl | rfl | rfl
    · have := hreads i hi
      omega
    · omega
    · omega
    · omega

/-- C18 at the 50 bytes `oneIndication`, where the run returns 1 with `c = 8`. -/
theorem DecodeTeredo_success_inside_buffer_witness :
    (DecodeTeredo setupOk () oneIndication 50 true).ret = some 1 ∧
    ∃ c b b4 b5 tp, (walk oneIndication 50 0).stop = .inner c ∧ 8 ∣ c ∧ c + 40 ≤ 50 ∧
      oneIndication[c]? = some b ∧ IP_GET_RAW_VER b = 6 ∧
      oneIndication[c + 4]? = some b4 ∧ oneIndication[c + 5]? = some b5 ∧
      (DecodeTeredo setupOk () oneIndication 50 true).events
        = [.PacketPseudoPktSetup () c (((50 : Nat) : Int) - (c : Int)) IPPROTO_IPV6,
           .DecodeTunnel tp c (((50 : Nat) : Int) - (c : Int)) IPPROTO_IPV6,
           .PacketEnqueue tp,
           .SCPerfCounterIncr] ∧
      ((50 : Nat) : Int) - (c : Int) = 40 + (IPV6_GET_RAW_PLEN b4 b5 : Int) ∧
      (40 : Int) ≤ ((50 : Nat) : Int) - (c : Int) ∧
      ((50 : Nat) : Int) - (c : Int) ≤ ((50 : Nat) : Int) ∧
      ∀ i ∈ (DecodeTeredo setupOk () oneIndication 50 true).reads,
        i < 50 ∧ i < oneIndication.length :=
  ⟨by rw [DecodeTeredo_oneIndication_ok],
    DecodeTeredo_success_inside_buffer setupOk () oneIndication 50 true
      (by rw [DecodeTeredo_oneIndication_ok])⟩

/-! ## Theorems: detect-fileext.c -/

theorem SCMemcmp_suffix (name ext : List Nat) (off n : Nat)
    (hname : name.length = off + n) (hext : ext.length = n) :
    SCMemcmp (name.drop off) ext n = some (if name.drop off = ext then 0 else 1) := by
  have h1 : (name.drop off).length = n := by rw [List.length_drop]; omega
  have ht1 : (name.drop off).take n = name.drop off := List.take_of_length_le (by omega)
  have ht2 : ext.take n = ext := List.take_of_length_le (by omega)
  simp only [SCMemcmp, h1, hext, le_refl, and_self, if_true, ht1, ht2]

/-- The path of `DetectFileextMatch` after its four guards, for a file whose name has
`name_len` bytes and a pattern of `len` bytes. -/
theorem DetectFileextMatch_main (K : Consts) (tx_id : Nat) (file : File)
    (fileext : DetectFileextData) (name : List Nat)
    (hname : file.name = some name) (htx : file.txid = tx_id)
    (hlen : fileext.len < file.name_len)
    (hwf : name.length = file.name_len) (hext : fileext.ext.length = fileext.len) :
    DetectFileextMatch K tx_id file fileext
      = some (if fileext.flags &&& K.DETECT_CONTENT_NEGATED = 0 then
          (if name[file.name_len - fileext.len - 1]? = some 0x2e ∧
              name.drop (file.name_len - fileext.len) = fileext.ext then 1 else 0)
        else 1) := by
  have h1 : ¬ file.txid < tx_id := by omega
  have h2 : ¬ file.txid > tx_id := by omega
  have h3 : ¬ file.name_len ≤ fileext.len := by omega
  have hlt : file.name_len - fileext.len - 1 < name.length := by omega
  have hget : name[file.name_len - fileext.len - 1]?
      = some name[file.name_len - fileext.len - 1] := List.getElem?_eq_getElem hlt
  have hcmp := SCMemcmp_suffix name fileext.ext (file.name_len - fileext.len) fileext.len
    (by omega) hext
  simp only [DetectFileextMatch, hname, if_neg h1, if_neg h2, if_neg h3, hget, hcmp]
  by_cases hdot : name[file.name_len - fileext.len - 1] = 0x2e
  · by_cases hsuf : name.drop (file.name_len - fileext.len) = fileext.ext
    · by_cases hneg : fileext.flags &&& K.DETECT_CONTENT_NEGATED = 0 <;>
        simp [hdot, hsuf, hneg]
    · by_cases hneg : fileext.flags &&& K.DETECT_CONTENT_NEGATED = 0 <;>
        simp [hdot, hsuf, hneg]
  · by_cases hneg : fileext.flags &&& K.DETECT_CONTENT_NEGATED = 0 <;>
      simp [hdot, hneg]

/-- With the negation flag set, the path after the four guards returns 1 whatever the
name ends with. -/
theorem DetectFileextMatch_negated (K : Consts) (tx_id : Nat) (file : File)
    (fileext : DetectFileextData) (name : List Nat)
    (hname : file.name = some name) (htx : file.txid = tx_id)
    (hlen : fileext.len < file.name_len)
    (hwf : name.length = file.name_len) (hext : fileext.ext.length = fileext.len)
    (hneg : fileext.flags &&& K.DETECT_CONTENT_NEGATED ≠ 0) :
    DetectFileextMatch K tx_id file fileext = some 1 := by
  rw [DetectFileextMatch_main K tx_id file fileext name hname htx hlen hwf hext, if_neg hneg]

/-- When the pattern does not parse, or the `SigMatch` is not allocated,
`DetectFileextSetup` returns -1 and the signature is untouched. -/
theorem DetectFileextSetup_untouched_before_append (K : Consts) (alloc : Bool)
    (parse : String → Option (List Nat × Nat × Nat)) (smAlloc : Bool) (s : Signature)
    (str : String) (h : DetectFileextParse alloc parse str = none ∨ smAlloc = false) :
    (DetectFileextSetup K alloc parse smAlloc s str).ret = -1 ∧
    (DetectFileextSetup K alloc parse smAlloc s str).sig = s := by
  cases hp : DetectFileextParse alloc parse str with
  | none => simp [DetectFileextSetup, hp]
  | some fileext =>
    rcases h with h | h
    · rw [hp] at h
      cases h
    · simp [DetectFileextSetup, hp, h]

/-! ### The claims about the `fileext` keyword -/

/-- C13 (fails on the code). With the negation flag set, `DetectFileextMatch` returns 1 on
a file whose name does end with `.` and the pattern: on `report.pdf` both the pattern `pdf`
and the negated pattern `pdf` return 1. On the name `a`, shorter than the pattern, both
return 0. -/
theorem DetectFileextMatch_negation_not_inverted :
    pdfPattern.ext = notPdfPattern.ext ∧ pdfPattern.len = notPdfPattern.len ∧
    pdfPattern.flags &&& K0.DETECT_CONTENT_NEGATED = 0 ∧
    notPdfPattern.flags &&& K0.DETECT_CONTENT_NEGATED ≠ 0 ∧
    DetectFileextMatch K0 5 reportPdf pdfPattern = some 1 ∧
    DetectFileextMatch K0 5 reportPdf notPdfPattern = some 1 ∧
    DetectFileextMatch K0 5 shortName pdfPattern = some 0 ∧
    DetectFileextMatch K0 5 shortName notPdfPattern = some 0 := by
  decide

/-- C14. Without the negation flag, on a file whose name (when it has one) has `name_len`
bytes and a pattern whose `ext` has `len` bytes, `DetectFileextMatch` returns 1 exactly when
the file has a name, its transaction id is the evaluated one, `name_len > len`, the byte at
index `name_len - len - 1` is `.` and the last `len` bytes of the name are the pattern; in
every other case it returns 0. -/
theorem DetectFileextMatch_plain (K : Consts) (tx_id : Nat) (file : File)
    (fileext : DetectFileextData)
    (hclear : fileext.flags &&& K.DETECT_CONTENT_NEGATED = 0)
    (hwf : ∀ name, file.name = some name → name.length = file.name_len)
    (hext : fileext.ext.length = fileext.len) :
    (DetectFileextMatch K tx_id file fileext = some 1 ↔
      ∃ name, file.name = some name ∧ file.txid = tx_id ∧ fileext.len < file.name_len ∧
        name[file.name_len - fileext.len - 1]? = some 0x2e ∧
        name.drop (file.name_len - fileext.len) = fileext.ext) ∧
    (DetectFileextMatch K tx_id file fileext ≠ some 1 →
      DetectFileextMatch K tx_id file fileext = some 0) := by
  cases hname : file.name with
  | none =>
    have hrun : DetectFileextMatch K tx_id file fileext = some 0 := by
      simp [DetectFileextMatch, hname]
    rw [hrun]
    refine ⟨⟨fun h => (by cases h), ?_⟩, fun _ => rfl⟩
    rintro ⟨name, h, _⟩
    cases h
  | some name =>
    by_cases htx : file.txid = tx_id
    · by_cases hlen : fileext.len < file.name_len
      · rw [DetectFileextMatch_main K tx_id file fileext name hname htx hlen
          (hwf name hname) hext, if_pos hclear]
        by_cases hok : name[file.name_len - fileext.len - 1]? = some 0x2e ∧
            name.drop (file.name_len - fileext.len) = fileext.ext
        · rw [if_pos hok]
          refine ⟨⟨fun _ => ⟨name, rfl, htx, hlen, hok.1, hok.2⟩, fun _ => rfl⟩, ?_⟩
          intro h
          exact absurd rfl h
        · rw [if_neg hok]
          refine ⟨⟨fun h => (by cases h), ?_⟩, fun _ => rfl⟩
          rintro ⟨name', h, _, _, h1, h2⟩
          cases h
          exact absurd ⟨h1, h2⟩ hok
      · have hrun : DetectFileextMatch K tx_id file fileext = some 0 := by
          have h3 : file.name_len ≤ fileext.len := by omega
          simp [DetectFileextMatch, hname, htx, h3]
        rw [hrun]
        refine ⟨⟨fun h => (by cases h), ?_⟩, fun _ => rfl⟩
        rintro ⟨_, _, _, h, _⟩
        exact absurd h hlen
    · have hrun : DetectFileextMatch K tx_id file fileext = some 0 := by
        rcases Nat.lt_or_gt_of_ne htx with h | h
        · simp [DetectFileextMatch, hname, h]
        · have h1 : ¬ file.txid < tx_id := by omega
          simp [DetectFileextMatch, hname, h1, h]
      rw [hrun]
      refine ⟨⟨fun h => (by cases h), ?_⟩, fun _ => rfl⟩
      rintro ⟨_, _, h, _⟩
      exact absurd h htx

/-- C14 at `report.pdf` (returns 1) and `notes.txt` (returns 0) with the pattern `pdf`. -/
theorem DetectFileextMatch_plain_witness :
    DetectFileextMatch K0 5 reportPdf pdfPattern = some 1 ∧
    DetectFileextMatch K0 5 notesTxt pdfPattern = some 0 :=
  ⟨(DetectFileextMatch_plain K0 5 reportPdf pdfPattern (by decide)
      (by intro name h; cases h; decide) (by decide)).1.mpr
      ⟨bytes "report.pdf", rfl, rfl, by decide, by decide, by decide⟩,
    (DetectFileextMatch_plain K0 5 notesTxt pdfPattern (by decide)
      (by intro name h; cases h; decide) (by decide)).2 (by decide)⟩

/-- C15. For a file without a name, and for a file whose transaction id is not the
evaluated one, `DetectFileextMatch` returns 0 for every pattern and every flags value. -/
theorem DetectFileextMatch_other_transaction (K : Consts) (tx_id : Nat) (file : File)
    (fileext : DetectFileextData) (h : file.name = none ∨ file.txid ≠ tx_id) :
    DetectFileextMatch K tx_id file fileext = some 0 := by
  cases hname : file.name with
  | none => simp [DetectFileextMatch, hname]
  | some name =>
    rcases h with h | h
    · rw [hname] at h
      cases h
    · rcases Nat.lt_or_gt_of_ne h with h | h
      · simp [DetectFileextMatch, hname, h]
      · have h1 : ¬ file.txid < tx_id := by omega
        simp [DetectFileextMatch, hname, h1, h]

/-- C15 with the negated pattern `pdf`: a file without a name, and `report.pdf` of
transaction 5 evaluated for the transactions 4 and 6. -/
theorem DetectFileextMatch_other_transaction_witness :
    DetectFileextMatch K0 5 noName notPdfPattern = some 0 ∧
    DetectFileextMatch K0 4 reportPdf notPdfPattern = some 0 ∧
    DetectFileextMatch K0 6 reportPdf notPdfPattern = some 0 :=
  ⟨DetectFileextMatch_other_transaction K0 5 noName notPdfPattern (Or.inl rfl),
    DetectFileextMatch_other_transaction K0 4 reportPdf notPdfPattern (Or.inr (by decide)),
    DetectFileextMatch_other_transaction K0 6 reportPdf notPdfPattern (Or.inr (by decide))⟩

theorem lor_flags_land_left (x a b : Nat) : (x ||| (a ||| b)) &&& a = a := by
  apply Nat.eq_of_testBit_eq
  intro i
  simp only [Nat.testBit_and, Nat.testBit_or]
  cases x.testBit i <;> cases a.testBit i <;> cases b.testBit i <;> rfl

theorem lor_flags_land_right (x a b : Nat) : (x ||| (a ||| b)) &&& b = b := by
  apply Nat.eq_of_testBit_eq
  intro i
  simp only [Nat.testBit_and, Nat.testBit_or]
  cases x.testBit i <;> cases a.testBit i <;> cases b.testBit i <;> rfl

/-- The run of `DetectFileextSetup` once the pattern is parsed and the `SigMatch` is
allocated. -/
theorem DetectFileextSetup_parsed (K : Consts) (alloc : Bool)
    (parse : String → Option (List Nat × Nat × Nat)) (s : Signature) (str : String)
    (fileext : DetectFileextData) (hparse : DetectFileextParse alloc parse str = some fileext) :
    DetectFileextSetup K alloc parse true s str
      = if s.alproto ≠ K.ALPROTO_UNKNOWN ∧ s.alproto ≠ K.ALPROTO_HTTP then
          ⟨-1, SigMatchAppendSMToList s ⟨K.DETECT_FILEEXT, fileext⟩ K.DETECT_SM_LIST_FILEMATCH,
            [.DetectFileextFree fileext, .SCFree ⟨K.DETECT_FILEEXT, fileext⟩]⟩
        else
          ⟨0,
            { alproto := K.ALPROTO_HTTP
              file_flags := s.file_flags ||| (K.FILE_SIG_NEED_FILE ||| K.FILE_SIG_NEED_FILENAME)
              sm_lists := Function.update s.sm_lists K.DETECT_SM_LIST_FILEMATCH
                (s.sm_lists K.DETECT_SM_LIST_FILEMATCH ++ [⟨K.DETECT_FILEEXT, fileext⟩]) },
            [.AppLayerHtpNeedFileInspection]⟩ := by
  simp only [DetectFileextSetup, hparse, SigMatchAppendSMToList]
  rfl

/-- C16. With a pattern that parses and a `SigMatch` allocation that succeeds,
`DetectFileextSetup` returns 0 exactly when the signature's protocol on entry is
`ALPROTO_UNKNOWN` or `ALPROTO_HTTP`; the protocol is then `ALPROTO_HTTP` and the file flags
are the old ones with `FILE_SIG_NEED_FILE` and `FILE_SIG_NEED_FILENAME` added, every other
bit unchanged. With any other protocol on entry it returns -1. -/
theorem DetectFileextSetup_protocol (K : Consts) (alloc : Bool)
    (parse : String → Option (List Nat × Nat × Nat)) (s : Signature) (str : String)
    (fileext : DetectFileextData) (hparse : DetectFileextParse alloc parse str = some fileext) :
    ((DetectFileextSetup K alloc parse true s str).ret = 0 ↔
      s.alproto = K.ALPROTO_UNKNOWN ∨ s.alproto = K.ALPROTO_HTTP) ∧
    ((DetectFileextSetup K alloc parse true s str).ret = 0 →
      (DetectFileextSetup K alloc parse true s str).sig.alproto = K.ALPROTO_HTTP ∧
      (DetectFileextSetup K alloc parse true s str).sig.file_flags
        = s.file_flags ||| (K.FILE_SIG_NEED_FILE ||| K.FILE_SIG_NEED_FILENAME) ∧
      (DetectFileextSetup K alloc parse true s str).sig.file_flags &&& K.FILE_SIG_NEED_FILE
        = K.FILE_SIG_NEED_FILE ∧
      (DetectFileextSetup K alloc parse true s str).sig.file_flags &&& K.FILE_SIG_NEED_FILENAME
        = K.FILE_SIG_NEED_FILENAME ∧
      ∀ i, (K.FILE_SIG_NEED_FILE ||| K.FILE_SIG_NEED_FILENAME).testBit i = false →
        (DetectFileextSetup K alloc parse true s str).sig.file_flags.testBit i
          = s.file_flags.testBit i) ∧
    (¬ (s.alproto = K.ALPROTO_UNKNOWN ∨ s.alproto = K.ALPROTO_HTTP) →
      (DetectFileextSetup K alloc parse true s str).ret = -1) := by
  rw [DetectFileextSetup_parsed K alloc parse s str fileext hparse]
  by_cases hconf : s.alproto ≠ K.ALPROTO_UNKNOWN ∧ s.alproto ≠ K.ALPROTO_HTTP
  · rw [if_pos hconf]
    refine ⟨⟨fun h => (by cases h), ?_⟩, fun h => (by cases h), fun _ => rfl⟩
    rintro (h | h)
    · exact absurd h hconf.1
    · exact absurd h hconf.2
  · rw [if_neg hconf]
    have hok : s.alproto = K.ALPROTO_UNKNOWN ∨ s.alproto = K.ALPROTO_HTTP := by
      by_contra hcon
      exact hconf ⟨fun h => hcon (Or.inl h), fun h => hcon (Or.inr h)⟩
    refine ⟨⟨fun _ => hok, fun _ => rfl⟩, ?_, fun h => absurd hok h⟩
    intro _
    refine ⟨rfl, rfl, lor_flags_land_left _ _ _, lor_flags_land_right _ _ _, ?_⟩
    intro i hi
    simp only [Nat.testBit_or] at hi ⊢
    rw [hi, Bool.or_false]

/-- C16 at a signature without protocol (accepted, bound to HTTP, flags 0x04 become 0x07)
and at a signature bound to protocol 2 (rejected). -/
theorem DetectFileextSetup_protocol_witness :
    DetectFileextParse true (DetectParseContentString K0) "pdf" = some ⟨bytes "pdf", 3, 0⟩ ∧
    (DetectFileextSetup K0 true (DetectParseContentString K0) true freshSignature "pdf").ret = 0 ∧
    (DetectFileextSetup K0 true (DetectParseContentString K0) true ftpSignature "pdf").ret = -1 :=
  ⟨by decide,
    (DetectFileextSetup_protocol K0 true (DetectParseContentString K0) freshSignature "pdf"
      ⟨bytes "pdf", 3, 0⟩ (by decide)).1.mpr (Or.inl rfl),
    (DetectFileextSetup_protocol K0 true (DetectParseContentString K0) ftpSignature "pdf"
      ⟨bytes "pdf", 3, 0⟩ (by decide)).2.2 (by decide)⟩

/-- C17 (as stated, false). The content-string parser accepts the bare input `doc`, but
when the `SCMalloc` of the record fails `DetectFileextParse` returns NULL. -/
theorem DetectFileextParse_alloc_failure_counterexample :
    DetectParseContentString K0 "doc" = some (bytes "doc", 3, 0) ∧
    DetectFileextParse false (DetectParseContentString K0) "doc" = none := by
  decide

/-- C17 (amended). When `SCMalloc` succeeds, `DetectFileextParse` returns, for every input
the content-string parser accepts, the record with exactly the pattern bytes, their count
and the flags the parser produced, and NULL for every input the parser rejects; when
`SCMalloc` fails it returns NULL. With the parser as the spec describes it, the quoted
input `tar.gz` gives 6 bytes `tar.gz`, the quoted input `pdf` gives 3 bytes `pdf`, and the
bare input `doc` is accepted. -/
theorem DetectFileextParse_spec (K : Consts)
    (parse : String → Option (List Nat × Nat × Nat)) (str : String) :
    (∀ ext len flags, parse str = some (ext, len, flags) →
      DetectFileextParse true parse str = some ⟨ext, len, flags⟩) ∧
    (parse str = none → DetectFileextParse true parse str = none) ∧
    DetectFileextParse false parse str = none ∧
    DetectFileextParse true (DetectParseContentString K) (quoted "tar.gz")
      = some ⟨bytes "tar.gz", 6, 0⟩ ∧
    DetectFileextParse true (DetectParseContentString K) (quoted "pdf")
      = some ⟨bytes "pdf", 3, 0⟩ ∧
    DetectFileextParse true (DetectParseContentString K) "doc" = some ⟨bytes "doc", 3, 0⟩ := by
  refine ⟨?_, ?_, rfl, ?_, ?_, ?_⟩
  · intro ext len flags h
    simp [DetectFileextParse, h]
  · intro h
    simp [DetectFileextParse, h]
  · rfl
  · rfl
  · rfl

/-- C17 (amended) with the parser of the spec: the negated bare input `!doc` gives the
bytes `doc` with the negation flag, and the empty input gives NULL. -/
theorem DetectFileextParse_spec_witness :
    DetectParseContentString K0 "!doc" = some (bytes "doc", 3, K0.DETECT_CONTENT_NEGATED) ∧
    DetectFileextParse true (DetectParseContentString K0) "!doc"
      = some ⟨bytes "doc", 3, K0.DETECT_CONTENT_NEGATED⟩ ∧
    DetectParseContentString K0 "" = none ∧
    DetectFileextParse true (DetectParseContentString K0) "" = none :=
  ⟨by decide,
    (DetectFileextParse_spec K0 (DetectParseContentString K0) "!doc").1 (bytes "doc") 3
      K0.DETECT_CONTENT_NEGATED (by decide),
    by decide,
    (DetectFileextParse_spec K0 (DetectParseContentString K0) "").2.1 (by decide)⟩

/-- C20 (fails on the code). On a signature bound to another protocol, with a pattern that
parses and a `SigMatch` that is allocated, `DetectFileextSetup` returns -1 after it has
appended the `SigMatch` to the file-match list: the list, empty before, holds the
`SigMatch` that the error path has freed. The protocol and the file flags are unchanged. -/
theorem DetectFileextSetup_failure_leaves_sigmatch :
    ftpSignature.sm_lists K0.DETECT_SM_LIST_FILEMATCH = [] ∧
    (DetectFileextSetup K0 true (DetectParseContentString K0) true ftpSignature "pdf").ret = -1 ∧
    (DetectFileextSetup K0 true (DetectParseContentString K0) true ftpSignature
        "pdf").sig.sm_lists K0.DETECT_SM_LIST_FILEMATCH
      = [⟨K0.DETECT_FILEEXT, ⟨bytes "pdf", 3, 0⟩⟩] ∧
    (DetectFileextSetup K0 true (DetectParseContentString K0) true ftpSignature "pdf").events
      = [.DetectFileextFree ⟨bytes "pdf", 3, 0⟩,
         .SCFree ⟨K0.DETECT_FILEEXT, ⟨bytes "pdf", 3, 0⟩⟩] ∧
    (DetectFileextSetup K0 true (DetectParseContentString K0) true ftpSignature
        "pdf").sig.alproto = ftpSignature.alproto ∧
    (DetectFileextSetup K0 true (DetectParseContentString K0) true ftpSignature
        "pdf").sig.file_flags = ftpSignature.file_flags := by
  decide

end Suricata
